import Mathlib

/-!
Shallow embedding of the `rememberator` bot's natural-language time parser
(`src/utils/time_parser.py`, class `TimeParser`) and recurrence engine
(`src/reminder_manager.py`, class `ReminderManager`), together with theorems
settling the specification's claims about them.

Modelling conventions:
* Python `datetime` values are wall-clock instants with microsecond
  resolution, represented as microseconds since 1970-01-01 00:00 in the
  user's timezone.  Every datetime occurring inside one `parse` call carries
  the same timezone in the source (the reference instant and all values
  derived from it by `replace`/`timedelta`, plus explicit-date constructions
  with the same `user_tz`), so `datetime` comparisons are wall-clock
  comparisons.  Timezone names are carried around as opaque strings, as in
  the source.
* Python integers are exact; `Int`/`Nat` model them directly.
* Fallible operations (`datetime.replace` and the `datetime` constructor,
  which raise `ValueError` on out-of-range fields) return `Option`; an
  exception escaping `TimeParser.parse` is an `Except.error`.
* The external `dateparser` library (strategy 1 of `TimeParser.parse`,
  `_try_dateparser`) is not code of this repository; it is modelled as an
  oracle function passed as a parameter.  The repository's own
  post-processing of the oracle's answer (second/microsecond truncation,
  rule tag) is embedded from `_try_dateparser`.
* The regular expressions of the source are hand-compiled into backtracking
  recognizers with Python `re` semantics for these patterns (leftmost match,
  alternation priority order, greedy quantifiers), one recognizer per
  pattern of `self.ru_patterns` / `self.en_patterns`.
-/

/-! ## Wall-clock time model (Python `datetime` with a fixed timezone) -/

def usPerSecond : Int := 1000000

/-- 60 seconds. -/
def usPerMinute : Int := 60000000

/-- 60 minutes. -/
def usPerHour : Int := 3600000000

/-- 24 hours. -/
def usPerDay : Int := 86400000000

/-- A Python `datetime`: microseconds since 1970-01-01 00:00:00 local time. -/
structure PyDateTime where
  us : Int
deriving DecidableEq, Repr

instance : LE PyDateTime := ⟨fun a b => a.us ≤ b.us⟩

instance : LT PyDateTime := ⟨fun a b => a.us < b.us⟩

instance (a b : PyDateTime) : Decidable (a ≤ b) :=
  inferInstanceAs (Decidable (a.us ≤ b.us))

instance (a b : PyDateTime) : Decidable (a < b) :=
  inferInstanceAs (Decidable (a.us < b.us))

/-- `d + timedelta(microseconds=n)`. -/
def PyDateTime.addUs (d : PyDateTime) (n : Int) : PyDateTime := ⟨d.us + n⟩

/-- `d + timedelta(minutes=n)`. -/
def PyDateTime.addMinutes (d : PyDateTime) (n : Int) : PyDateTime :=
  d.addUs (n * usPerMinute)

/-- `d + timedelta(hours=n)`. -/
def PyDateTime.addHours (d : PyDateTime) (n : Int) : PyDateTime :=
  d.addUs (n * usPerHour)

/-- `d + timedelta(days=n)`. -/
def PyDateTime.addDays (d : PyDateTime) (n : Int) : PyDateTime :=
  d.addUs (n * usPerDay)

/-- The calendar day this instant falls on, as a day count since the epoch
(`datetime.date()` up to the calendar bijection). -/
def PyDateTime.dayIndex (d : PyDateTime) : Int := d.us / usPerDay

/-- Microseconds since local midnight (the time-of-day component). -/
def PyDateTime.timeOfDay (d : PyDateTime) : Int := d.us % usPerDay

/-- `datetime.hour`. -/
def PyDateTime.hour (d : PyDateTime) : Int := d.timeOfDay / usPerHour

/-- `datetime.minute`. -/
def PyDateTime.minute (d : PyDateTime) : Int :=
  (d.timeOfDay % usPerHour) / usPerMinute

/-- `datetime.weekday()`: Monday = 0 … Sunday = 6 (1970-01-01 was a Thursday). -/
def PyDateTime.weekday (d : PyDateTime) : Int := (d.dayIndex + 3) % 7

/-- `d.replace(second=0, microsecond=0)`. -/
def PyDateTime.truncToMinute (d : PyDateTime) : PyDateTime :=
  ⟨d.us - d.us % usPerMinute⟩

/-- `d.replace(hour=h, minute=m, second=0, microsecond=0)`; `none` models the
`ValueError` raised by Python on an out-of-range field. -/
def PyDateTime.replaceTime (d : PyDateTime) (h m : Int) : Option PyDateTime :=
  if 0 ≤ h ∧ h ≤ 23 ∧ 0 ≤ m ∧ m ≤ 59 then
    some ⟨d.dayIndex * usPerDay + h * usPerHour + m * usPerMinute⟩
  else none

/-! ### Gregorian calendar (for explicit-date parsing and `.year`) -/

def isLeapYear (y : Int) : Bool :=
  y % 4 = 0 && (y % 100 ≠ 0 || y % 400 = 0)

def daysInMonth (y m : Int) : Int :=
  if m = 1 ∨ m = 3 ∨ m = 5 ∨ m = 7 ∨ m = 8 ∨ m = 10 ∨ m = 12 then 31
  else if m = 4 ∨ m = 6 ∨ m = 9 ∨ m = 11 then 30
  else if isLeapYear y then 29 else 28

/-- Day count since 1970-01-01 of the civil date `y-m-d` (valid for the
`datetime` year range `1 ≤ y ≤ 9999`). -/
def daysFromCivil (y m d : Int) : Int :=
  let y2 := if m ≤ 2 then y - 1 else y
  let era := y2 / 400
  let yoe := y2 - era * 400
  let mp := (m + 9) % 12
  let doy := (153 * mp + 2) / 5 + d - 1
  let doe := yoe * 365 + yoe / 4 - yoe / 100 + doy
  era * 146097 + doe - 719468

/-- `datetime.year` (inverse of `daysFromCivil`, year component only). -/
def PyDateTime.year (dt : PyDateTime) : Int :=
  let z := dt.dayIndex + 719468
  let era := z / 146097
  let doe := z - era * 146097
  let yoe := (doe - doe / 1460 + doe / 36524 - doe / 146096) / 365
  let y := yoe + era * 400
  let doy := doe - (365 * yoe + yoe / 4 - yoe / 100)
  let mp := (5 * doy + 2) / 153
  let m := if mp < 10 then mp + 3 else mp - 9
  if m ≤ 2 then y + 1 else y

/-- The `datetime(year, month, day, hour, minute, tzinfo=user_tz)` constructor;
`none` models the `ValueError` on a nonexistent calendar date or field. -/
def mkDatetime (y mo d h mi : Int) : Option PyDateTime :=
  if 1 ≤ y ∧ y ≤ 9999 ∧ 1 ≤ mo ∧ mo ≤ 12 ∧ 1 ≤ d ∧ d ≤ daysInMonth y mo ∧
     0 ≤ h ∧ h ≤ 23 ∧ 0 ≤ mi ∧ mi ≤ 59 then
    some ⟨daysFromCivil y mo d * usPerDay + h * usPerHour + mi * usPerMinute⟩
  else none

/-! ## Recurrence engine: `ReminderManager.calculate_next_remind_time`
(`src/reminder_manager.py`, lines 17-45) -/

/-- The fields of a reminder row consumed by `calculate_next_remind_time`.
`next_remind_time_utc` is stored as an ISO string and re-parsed with
`datetime.fromisoformat`; we model it as the instant directly. -/
structure Reminder where
  next_remind_time_utc : PyDateTime
  repeat_type : String
  repeat_days : Option String
  repeat_interval : Int
deriving DecidableEq, Repr

/-- Minimal integer parser for one CSV field (`int(d)` on a digit string,
possibly signed).  The stored `repeat_days` fields are such strings. -/
def pyInt (s : List Char) : Int :=
  match s with
  | '-' :: rest => -(rest.foldl (fun a c => 10 * a + (c.toNat - 48)) 0 : Int)
  | _ => (s.foldl (fun a c => 10 * a + (c.toNat - 48)) 0 : Int)

/-- `s.split(',')` on the character list. -/
def splitComma (s : List Char) : List (List Char) :=
  match s with
  | [] => [[]]
  | c :: rest =>
    let r := splitComma rest
    if c = ',' then [] :: r
    else match r with
         | [] => [[c]]
         | g :: gs => (c :: g) :: gs

/-- `[int(d) for d in reminder['repeat_days'].split(',')] if reminder['repeat_days'] else []`
(`None` and the empty string are falsy). -/
def splitDays (f : Option String) : List Int :=
  match f with
  | none => []
  | some s => if s = "" then [] else (splitComma s.data).map pyInt

/-- Python `min` over a nonempty list (`min` of `[]` raises; the source only
calls it on a nonempty list, and we return 0 there). -/
def pyMin : List Int → Int
  | [] => 0
  | x :: xs => xs.foldl min x

/-- `ReminderManager.calculate_next_remind_time` (src/reminder_manager.py:17). -/
def calculate_next_remind_time (reminder : Reminder) : PyDateTime :=
  let current_time := reminder.next_remind_time_utc
  if reminder.repeat_type = "daily" then
    current_time.addDays 1
  else if reminder.repeat_type = "weekly" then
    let days_list := splitDays reminder.repeat_days
    if days_list = [] then current_time.addDays 7
    else
      let current_weekday := current_time.weekday
      let future_days := days_list.map (fun day =>
        let days_ahead := day - current_weekday
        if days_ahead ≤ 0 then days_ahead + 7 else days_ahead)
      current_time.addDays (pyMin future_days)
  else
    current_time

/-! ### Helper lemmas: `pyMin`, day arithmetic -/

theorem foldl_min_mem (xs : List Int) (a : Int) :
    xs.foldl min a = a ∨ xs.foldl min a ∈ xs := by
  induction xs generalizing a with
  | nil => left; rfl
  | cons x xs ih =>
    simp only [List.foldl]
    rcases ih (min a x) with h | h
    · rw [h]
      rcases le_total a x with hax | hxa
      · left; exact min_eq_left hax
      · right; rw [min_eq_right hxa]; exact List.mem_cons_self x xs
    · right; exact List.mem_cons_of_mem x h

theorem foldl_min_le_init (xs : List Int) (a : Int) : xs.foldl min a ≤ a := by
  induction xs generalizing a with
  | nil => exact le_refl _
  | cons y ys ih => exact le_trans (ih (min a y)) (min_le_left _ _)

theorem foldl_min_le : ∀ (xs : List Int) (a x : Int), x ∈ xs → xs.foldl min a ≤ x
  | [], _, _, hx => absurd hx (List.not_mem_nil _)
  | y :: ys, a, x, hx => by
    simp only [List.foldl]
    rcases List.mem_cons.mp hx with rfl | h
    · exact le_trans (foldl_min_le_init ys (min a x)) (min_le_right a x)
    · exact foldl_min_le ys (min a y) x h

theorem pyMin_mem (xs : List Int) (h : xs ≠ []) : pyMin xs ∈ xs := by
  match xs with
  | [] => exact absurd rfl h
  | x :: rest =>
    rcases foldl_min_mem rest x with h1 | h1
    · rw [pyMin, h1]; exact List.mem_cons_self _ _
    · exact List.mem_cons_of_mem _ (by rw [pyMin]; exact h1)

theorem pyMin_le (xs : List Int) (x : Int) (hx : x ∈ xs) : pyMin xs ≤ x := by
  match xs with
  | [] => exact absurd hx (List.not_mem_nil _)
  | y :: rest =>
    rcases List.mem_cons.mp hx with rfl | h
    · exact foldl_min_le_init rest x
    · exact foldl_min_le rest y x h

theorem addDays_timeOfDay (d : PyDateTime) (n : Int) :
    (d.addDays n).timeOfDay = d.timeOfDay := by
  simp only [PyDateTime.addDays, PyDateTime.addUs, PyDateTime.timeOfDay,
    usPerDay, usPerHour, usPerMinute, usPerSecond]
  omega

theorem addDays_dayIndex (d : PyDateTime) (n : Int) :
    (d.addDays n).dayIndex = d.dayIndex + n := by
  simp only [PyDateTime.addDays, PyDateTime.addUs, PyDateTime.dayIndex,
    usPerDay, usPerHour, usPerMinute, usPerSecond]
  omega

theorem addDays_hour (d : PyDateTime) (n : Int) : (d.addDays n).hour = d.hour := by
  simp only [PyDateTime.hour, addDays_timeOfDay]

theorem addDays_minute (d : PyDateTime) (n : Int) :
    (d.addDays n).minute = d.minute := by
  simp only [PyDateTime.minute, addDays_timeOfDay]

theorem weekday_lt (d : PyDateTime) : 0 ≤ d.weekday ∧ d.weekday < 7 := by
  simp only [PyDateTime.weekday]
  constructor
  · exact Int.emod_nonneg _ (by norm_num)
  · exact Int.emod_lt_of_pos _ (by norm_num)

/-! ## Claims about the recurrence engine -/

/-- Modelled from the spec's words for the weekly step (§4.3): "find the
smallest weekday in the set strictly greater than the current weekday; if
none exists this week, wrap to the smallest weekday in the set next week". -/
def specNextWeekday (days : List Int) (cw : Int) : Int :=
  let gt := days.filter (fun d => cw < d)
  if gt = [] then pyMin days else pyMin gt

/-- Modelled from the spec's words: "the day delta is
`(nextWeekday - currentWeekday) mod 7`, treated as exactly 7 when the
computed delta is zero". -/
def specWeeklyDelta (days : List Int) (cw : Int) : Int :=
  let nw := specNextWeekday days cw
  if (nw - cw) % 7 = 0 then 7 else (nw - cw) % 7

theorem pyMin_map_eq (l : List Int) (f : Int → Int) (w : Int) (hw : w ∈ l)
    (hlb : ∀ d ∈ l, f w ≤ f d) : pyMin (l.map f) = f w := by
  have h1 : pyMin (l.map f) ≤ f w := pyMin_le _ _ (List.mem_map_of_mem f hw)
  have hne : l.map f ≠ [] := by
    cases l with
    | nil => exact absurd hw (List.not_mem_nil _)
    | cons a as => simp
  rcases List.mem_map.mp (pyMin_mem (l.map f) hne) with ⟨d, hd, hfd⟩
  have h2 := hlb d hd
  omega

theorem specNextWeekday_mem (days : List Int) (cw : Int) (hne : days ≠ []) :
    specNextWeekday days cw ∈ days := by
  unfold specNextWeekday
  by_cases hgt : days.filter (fun d => cw < d) = []
  · rw [if_pos hgt]; exact pyMin_mem days hne
  · rw [if_neg hgt]
    exact (List.mem_filter.mp (pyMin_mem _ hgt)).1

theorem specNextWeekday_lb (days : List Int) (cw : Int) (hne : days ≠ [])
    (hr : ∀ d ∈ days, 0 ≤ d ∧ d < 7) :
    ∀ d ∈ days,
      (fun day => if day - cw ≤ 0 then day - cw + 7 else day - cw)
        (specNextWeekday days cw) ≤
      (fun day => if day - cw ≤ 0 then day - cw + 7 else day - cw) d := by
  intro d hd
  simp only
  unfold specNextWeekday
  by_cases hgt : days.filter (fun x => cw < x) = []
  · rw [if_pos hgt]
    have hall : ∀ x ∈ days, ¬ cw < x := by
      intro x hx hcx
      have : x ∈ days.filter (fun x => cw < x) := by
        rw [List.mem_filter]
        exact ⟨hx, by simpa using hcx⟩
      rw [hgt] at this
      exact List.not_mem_nil _ this
    have hmem := pyMin_mem days hne
    have h1 : ¬ cw < pyMin days := hall _ hmem
    have h2 : ¬ cw < d := hall _ hd
    have h3 : pyMin days ≤ d := pyMin_le days d hd
    omega
  · rw [if_neg hgt]
    have hmem := pyMin_mem _ hgt
    have h1 : cw < pyMin (days.filter (fun x => cw < x)) := by
      have := (List.mem_filter.mp hmem).2
      simpa using this
    have h2 : pyMin (days.filter (fun x => cw < x)) < 7 :=
      (hr _ (List.mem_filter.mp hmem).1).2
    by_cases hcd : cw < d
    · have hdf : d ∈ days.filter (fun x => cw < x) := by
        rw [List.mem_filter]
        exact ⟨hd, by simpa using hcd⟩
      have h3 := pyMin_le _ _ hdf
      omega
    · have h4 := (hr d hd).1
      omega

/-- Claim C2 (confirmed): the weekly step of
`ReminderManager.calculate_next_remind_time` moves to the instant whose
weekday is the smallest member of the set strictly greater than the current
weekday (wrapping to the smallest member next week if none exists), at a day
delta of `(nextWeekday - currentWeekday) mod 7` with a zero delta treated as
exactly 7 days (never same-day), preserving time-of-day. -/
theorem claimC2 (r : Reminder) (days : List Int)
    (ht : r.repeat_type = "weekly")
    (hdl : splitDays r.repeat_days = days)
    (hne : days ≠ [])
    (hr : ∀ d ∈ days, 0 ≤ d ∧ d < 7) :
    calculate_next_remind_time r =
      r.next_remind_time_utc.addDays
        (specWeeklyDelta days r.next_remind_time_utc.weekday) ∧
    (calculate_next_remind_time r).weekday =
      specNextWeekday days r.next_remind_time_utc.weekday ∧
    (calculate_next_remind_time r).timeOfDay =
      r.next_remind_time_utc.timeOfDay ∧
    1 ≤ specWeeklyDelta days r.next_remind_time_utc.weekday ∧
    specWeeklyDelta days r.next_remind_time_utc.weekday ≤ 7 := by
  have hcw := weekday_lt r.next_remind_time_utc
  have hnw := specNextWeekday_mem days r.next_remind_time_utc.weekday hne
  have hnwr := hr _ hnw
  -- the raw delta computed by the source
  have hmin : pyMin (days.map (fun day =>
      if day - r.next_remind_time_utc.weekday ≤ 0
      then day - r.next_remind_time_utc.weekday + 7
      else day - r.next_remind_time_utc.weekday)) =
      (if specNextWeekday days r.next_remind_time_utc.weekday -
            r.next_remind_time_utc.weekday ≤ 0
       then specNextWeekday days r.next_remind_time_utc.weekday -
            r.next_remind_time_utc.weekday + 7
       else specNextWeekday days r.next_remind_time_utc.weekday -
            r.next_remind_time_utc.weekday) :=
    pyMin_map_eq days _ _ hnw
      (specNextWeekday_lb days r.next_remind_time_utc.weekday hne hr)
  have hdelta : specWeeklyDelta days r.next_remind_time_utc.weekday =
      (if specNextWeekday days r.next_remind_time_utc.weekday -
            r.next_remind_time_utc.weekday ≤ 0
       then specNextWeekday days r.next_remind_time_utc.weekday -
            r.next_remind_time_utc.weekday + 7
       else specNextWeekday days r.next_remind_time_utc.weekday -
            r.next_remind_time_utc.weekday) := by
    rcases hnwr with ⟨h0, h7⟩
    rcases hcw with ⟨hc0, hc7⟩
    simp only [specWeeklyDelta]
    split_ifs <;> omega
  have hcalc : calculate_next_remind_time r =
      r.next_remind_time_utc.addDays
        (specWeeklyDelta days r.next_remind_time_utc.weekday) := by
    unfold calculate_next_remind_time
    rw [ht, if_neg (show ¬("weekly" : String) = "daily" by decide), if_pos rfl,
      hdl, if_neg hne]
    show r.next_remind_time_utc.addDays
        (pyMin (days.map (fun day =>
          if day - r.next_remind_time_utc.weekday ≤ 0
          then day - r.next_remind_time_utc.weekday + 7
          else day - r.next_remind_time_utc.weekday))) = _
    rw [hmin, ← hdelta]
  refine ⟨hcalc, ?_, ?_, ?_, ?_⟩
  · rw [hcalc]
    show ((r.next_remind_time_utc.addDays _).dayIndex + 3) % 7 = _
    rw [addDays_dayIndex, hdelta]
    have hweek : (r.next_remind_time_utc.dayIndex + 3) % 7 =
        r.next_remind_time_utc.weekday := rfl
    rcases hnwr with ⟨h0, h7⟩
    rcases hcw with ⟨hc0, hc7⟩
    split_ifs <;> omega
  · rw [hcalc]; exact addDays_timeOfDay _ _
  · rw [hdelta]
    rcases hnwr with ⟨h0, h7⟩; rcases hcw with ⟨hc0, hc7⟩
    split_ifs <;> omega
  · rw [hdelta]
    rcases hnwr with ⟨h0, h7⟩; rcases hcw with ⟨hc0, hc7⟩
    split_ifs <;> omega

/-- A Mon/Wed/Fri weekly reminder currently due on Wednesday 2024-01-17 09:00. -/
def rWed : Reminder :=
  ⟨⟨daysFromCivil 2024 1 17 * usPerDay + 9 * usPerHour⟩, "weekly", some "0,2,4", 1⟩

/-- A Mon/Wed/Fri weekly reminder currently due on Friday 2024-01-19 09:00. -/
def rFri : Reminder :=
  ⟨⟨daysFromCivil 2024 1 19 * usPerDay + 9 * usPerHour⟩, "weekly", some "0,2,4", 1⟩

/-- Witness for C2: from a Wednesday with weekdays Mon/Wed/Fri the next
occurrence is the following Friday (+2 days), and from a Friday it is the
following Monday (+3 days), at the same time-of-day. -/
theorem claimC2_witness :
    calculate_next_remind_time rWed = rWed.next_remind_time_utc.addDays 2 ∧
    (calculate_next_remind_time rWed).weekday = 4 ∧
    calculate_next_remind_time rFri = rFri.next_remind_time_utc.addDays 3 ∧
    (calculate_next_remind_time rFri).weekday = 0 := by
  have h1 := claimC2 rWed [0, 2, 4] rfl (by decide) (by decide) (by decide)
  have h2 := claimC2 rFri [0, 2, 4] rfl (by decide) (by decide) (by decide)
  refine ⟨h1.1.trans (by decide), ?_, h2.1.trans (by decide), ?_⟩
  · rw [h1.2.1]; decide
  · rw [h2.2.1]; decide

/-- A daily reminder with `repeat_interval = 2`, due 2024-01-15 10:00. -/
def rDaily2 : Reminder :=
  ⟨⟨daysFromCivil 2024 1 15 * usPerDay + 10 * usPerHour⟩, "daily", none, 2⟩

/-- Counterexample for C7: for a daily reminder with interval 2 the source
advances by exactly 1 day, not 2 — `repeat_interval` is never read by
`ReminderManager.calculate_next_remind_time`. -/
theorem claimC7_counterexample :
    calculate_next_remind_time rDaily2 = rDaily2.next_remind_time_utc.addDays 1 ∧
    rDaily2.repeat_interval = 2 ∧
    calculate_next_remind_time rDaily2 ≠ rDaily2.next_remind_time_utc.addDays 2 := by
  decide

/-- Claim C7 (corrected): every daily recurrence step advances by exactly one
day with hour and minute unchanged, regardless of the reminder's
`repeat_interval`. -/
theorem claimC7_amended (r : Reminder) (h : r.repeat_type = "daily") :
    calculate_next_remind_time r = r.next_remind_time_utc.addDays 1 ∧
    (calculate_next_remind_time r).hour = r.next_remind_time_utc.hour ∧
    (calculate_next_remind_time r).minute = r.next_remind_time_utc.minute := by
  have h1 : calculate_next_remind_time r = r.next_remind_time_utc.addDays 1 := by
    unfold calculate_next_remind_time
    rw [h, if_pos rfl]
  exact ⟨h1, by rw [h1]; exact addDays_hour _ _, by rw [h1]; exact addDays_minute _ _⟩

/-- Witness for the amended C7 at a concrete daily reminder. -/
theorem claimC7_witness :
    calculate_next_remind_time rDaily2 = rDaily2.next_remind_time_utc.addDays 1 ∧
    (calculate_next_remind_time rDaily2).hour = rDaily2.next_remind_time_utc.hour ∧
    (calculate_next_remind_time rDaily2).minute = rDaily2.next_remind_time_utc.minute :=
  claimC7_amended rDaily2 rfl

/-- A one-shot (`repeat_type = 'once'`) reminder due 2024-01-15 09:00. -/
def rOnce : Reminder :=
  ⟨⟨daysFromCivil 2024 1 15 * usPerDay + 9 * usPerHour⟩, "once", none, 1⟩

/-- Counterexample for C8: for a non-repeating reminder the source returns
the current instant itself — an instant, not a terminal/null signal (the
function's result type has no null at all). -/
theorem claimC8_counterexample :
    calculate_next_remind_time rOnce = rOnce.next_remind_time_utc := by
  decide

/-- Claim C8 (corrected): for any repeat type other than `daily`/`weekly`
(including the non-repeating `once`), `calculate_next_remind_time` returns
the current instant unchanged rather than a terminal signal; deactivation of
one-shot reminders happens in the caller, which never invokes this function
for them. -/
theorem claimC8_amended (r : Reminder) (h1 : r.repeat_type ≠ "daily")
    (h2 : r.repeat_type ≠ "weekly") :
    calculate_next_remind_time r = r.next_remind_time_utc := by
  unfold calculate_next_remind_time
  rw [if_neg h1, if_neg h2]

/-- Witness for the amended C8 at a concrete one-shot reminder. -/
theorem claimC8_witness :
    calculate_next_remind_time rOnce = rOnce.next_remind_time_utc :=
  claimC8_amended rOnce (by decide) (by decide)

/-- Claim C10 (confirmed): a weekly reminder whose weekday set is missing or
empty advances by exactly 7 days, time-of-day unchanged. -/
theorem claimC10 (r : Reminder) (ht : r.repeat_type = "weekly")
    (hd : r.repeat_days = none ∨ r.repeat_days = some "") :
    calculate_next_remind_time r = r.next_remind_time_utc.addDays 7 ∧
    (calculate_next_remind_time r).timeOfDay = r.next_remind_time_utc.timeOfDay ∧
    (calculate_next_remind_time r).hour = r.next_remind_time_utc.hour ∧
    (calculate_next_remind_time r).minute = r.next_remind_time_utc.minute := by
  have hsplit : splitDays r.repeat_days = [] := by
    rcases hd with h | h <;> simp [splitDays, h]
  have h1 : calculate_next_remind_time r = r.next_remind_time_utc.addDays 7 := by
    unfold calculate_next_remind_time
    rw [ht, if_neg (show ¬("weekly" : String) = "daily" by decide), if_pos rfl,
      hsplit, if_pos rfl]
  exact ⟨h1, by rw [h1]; exact addDays_timeOfDay _ _,
    by rw [h1]; exact addDays_hour _ _, by rw [h1]; exact addDays_minute _ _⟩

/-- A weekly reminder with an empty weekday set, due 2024-01-15 09:00. -/
def rWeeklyEmpty : Reminder :=
  ⟨⟨daysFromCivil 2024 1 15 * usPerDay + 9 * usPerHour⟩, "weekly", none, 1⟩

/-- Witness for C10 at a concrete weekly reminder with no weekday set. -/
theorem claimC10_witness :
    calculate_next_remind_time rWeeklyEmpty =
      rWeeklyEmpty.next_remind_time_utc.addDays 7 ∧
    (calculate_next_remind_time rWeeklyEmpty).timeOfDay =
      rWeeklyEmpty.next_remind_time_utc.timeOfDay ∧
    (calculate_next_remind_time rWeeklyEmpty).hour =
      rWeeklyEmpty.next_remind_time_utc.hour ∧
    (calculate_next_remind_time rWeeklyEmpty).minute =
      rWeeklyEmpty.next_remind_time_utc.minute :=
  claimC10 rWeeklyEmpty rfl (Or.inl rfl)

/-! ## String helpers (`str.strip/lower/upper` restricted to the alphabets
appearing in the source's patterns: ASCII and Cyrillic) -/

def isPySpace (c : Char) : Bool :=
  c = ' ' || c = '\t' || c = '\n' || c = '\r' || c = '\x0b' || c = '\x0c'

def pyLowerChar (c : Char) : Char :=
  if 'A' ≤ c ∧ c ≤ 'Z' then Char.ofNat (c.toNat + 32)
  else if 'А' ≤ c ∧ c ≤ 'Я' then Char.ofNat (c.toNat + 32)
  else if c = 'Ё' then 'ё'
  else c

def pyUpperChar (c : Char) : Char :=
  if 'a' ≤ c ∧ c ≤ 'z' then Char.ofNat (c.toNat - 32)
  else if 'а' ≤ c ∧ c ≤ 'я' then Char.ofNat (c.toNat - 32)
  else if c = 'ё' then 'Ё'
  else c

def pyStrip (s : String) : String :=
  ⟨((s.data.dropWhile isPySpace).reverse.dropWhile isPySpace).reverse⟩

def pyLower (s : String) : String := ⟨s.data.map pyLowerChar⟩

def pyUpper (s : String) : String := ⟨s.data.map pyUpperChar⟩

/-! ## Hand-compiled regular expressions

A pattern fragment is a backtracking matcher returning every way to match a
prefix of the input, in Python `re` priority order (alternatives in written
order, greedy quantifiers longest-first).  `rxSearch` then reproduces
`re.search`: leftmost start position, first alternative in priority order. -/

def RxP (α : Type) : Type := List Char → List (α × List Char)

def RxP.pureP (a : α) : RxP α := fun s => [(a, s)]

def RxP.bindP (p : RxP α) (f : α → RxP β) : RxP β :=
  fun s => (p s).flatMap (fun x => f x.1 x.2)

instance : Monad RxP where
  pure := RxP.pureP
  bind := RxP.bindP

def RxP.failP : RxP α := fun _ => []

def RxP.orP (p q : RxP α) : RxP α := fun s => p s ++ q s

instance : Alternative RxP where
  failure := RxP.failP
  orElse p q := RxP.orP p (q ())

/-- Match one character satisfying `pred`. -/
def RxP.chr (pred : Char → Bool) : RxP Char := fun s =>
  match s with
  | [] => []
  | c :: r => if pred c then [(c, r)] else []

/-- Match a literal character sequence. -/
def RxP.lit : List Char → RxP Unit
  | [] => pure ()
  | c :: cs => RxP.bindP (RxP.chr (fun x => x = c)) (fun _ => RxP.lit cs)

/-- Match a literal word, capturing it. -/
def RxP.word (w : String) : RxP String :=
  RxP.bindP (RxP.lit w.data) (fun _ => pure w)

/-- Alternation of literal words in priority order, capturing the match. -/
def RxP.alts : List String → RxP String
  | [] => RxP.failP
  | w :: ws => RxP.orP (RxP.word w) (RxP.alts ws)

def isAsciiDigit (c : Char) : Bool := '0' ≤ c && c ≤ '9'

def RxP.digit : RxP Char := RxP.chr isAsciiDigit

def RxP.digitsExact : Nat → RxP (List Char)
  | 0 => pure []
  | n + 1 => do
    let c ← RxP.digit
    let cs ← RxP.digitsExact n
    pure (c :: cs)

def natOfDigits (cs : List Char) : Nat :=
  cs.foldl (fun a c => 10 * a + (c.toNat - 48)) 0

/-- `\d{1,2}` (greedy), as a number. -/
def RxP.num12 : RxP Nat :=
  RxP.orP (RxP.digitsExact 2) (RxP.digitsExact 1) |>.bindP (fun ds => pure (natOfDigits ds))

/-- `\d{2,4}` (greedy), as a number. -/
def RxP.num24 : RxP Nat :=
  RxP.orP (RxP.digitsExact 4) (RxP.orP (RxP.digitsExact 3) (RxP.digitsExact 2))
    |>.bindP (fun ds => pure (natOfDigits ds))

/-- Up to `fuel` more digits, greedy. -/
def RxP.digitsUpTo : Nat → RxP (List Char)
  | 0 => pure []
  | n + 1 =>
    RxP.orP
      (do
        let c ← RxP.digit
        let cs ← RxP.digitsUpTo n
        pure (c :: cs))
      (pure [])

/-- `\d+` (greedy), as a number; `fuel` bounds the repetition (the input
length suffices). -/
def RxP.numPlus (fuel : Nat) : RxP Nat := do
  let c ← RxP.digit
  let cs ← RxP.digitsUpTo fuel
  pure (natOfDigits (c :: cs))

/-- `\s*` (greedy). -/
def RxP.wsUpTo : Nat → RxP Unit
  | 0 => pure ()
  | n + 1 =>
    RxP.orP
      (do
        let _ ← RxP.chr isPySpace
        RxP.wsUpTo n)
      (pure ())

/-- `\s+` (greedy). -/
def RxP.wsPlus (fuel : Nat) : RxP Unit := do
  let _ ← RxP.chr isPySpace
  RxP.wsUpTo fuel

/-- `(?:...)?,` greedy: try the body first, then skip. -/
def RxP.opt (p : RxP α) : RxP (Option α) :=
  RxP.orP (RxP.bindP p (fun a => pure (some a))) (pure none)

/-- `$` (end of input; the inputs are single-line). -/
def RxP.eos : RxP Unit := fun s =>
  match s with
  | [] => [((), [])]
  | _ => []

/-- `re.search`: leftmost starting position, then first match in
backtracking priority order. -/
def rxSearch (p : RxP α) : List Char → Option α
  | [] => ((p []).head?).map (fun x => x.1)
  | c :: r =>
    match ((p (c :: r)).head?).map (fun x => x.1) with
    | some a => some a
    | none => rxSearch p r

/-- `re.search` on a pattern anchored with `^`: match at position 0 only. -/
def rxAtStart (p : RxP α) (s : String) : Option α :=
  ((p s.data).head?).map (fun x => x.1)

/-! ### Russian patterns (`self.ru_patterns`, src/utils/time_parser.py:20) -/

/-- `(утра|вечера|ночи|дня)` -/
def ruQualP : RxP String := RxP.alts ["утра", "вечера", "ночи", "дня"]

/-- `(?:\s+(?:в\s+)?)?` -/
def ruPrepP (fuel : Nat) : RxP Unit := do
  let _ ← RxP.opt (do
    RxP.wsPlus fuel
    let _ ← RxP.opt (do
      RxP.lit "в".data
      RxP.wsPlus fuel)
    pure ())
  pure ()

/-- `(\d{1,2})(?:[:\.](\d{2}))?\s*(утра|вечера|ночи|дня)?` -/
def ruClockP (fuel : Nat) : RxP (Nat × Option Nat × Option String) := do
  let h ← RxP.num12
  let mm ← RxP.opt (do
    let _ ← RxP.chr (fun c => c = ':' || c = '.')
    let ds ← RxP.digitsExact 2
    pure (natOfDigits ds))
  RxP.wsUpTo fuel
  let q ← RxP.opt ruQualP
  pure (h, mm, q)

/-- `через\s+(\d+)\s+(час|часа|часов)(?:\s+(\d+)\s+(минут|минуты|минуту))?` -/
def matchRelHoursRu (s : String) : Option (Nat × Option Nat) :=
  rxSearch (do
    RxP.lit "через".data
    RxP.wsPlus s.data.length
    let h ← RxP.numPlus s.data.length
    RxP.wsPlus s.data.length
    let _ ← RxP.alts ["час", "часа", "часов"]
    let mm ← RxP.opt (do
      RxP.wsPlus s.data.length
      let m ← RxP.numPlus s.data.length
      RxP.wsPlus s.data.length
      let _ ← RxP.alts ["минут", "минуты", "минуту"]
      pure m)
    pure (h, mm)) s.data

/-- `через\s+(\d+)\s+(минут|минуты|минуту)` -/
def matchRelMinutesRu (s : String) : Option Nat :=
  rxSearch (do
    RxP.lit "через".data
    RxP.wsPlus s.data.length
    let m ← RxP.numPlus s.data.length
    RxP.wsPlus s.data.length
    let _ ← RxP.alts ["минут", "минуты", "минуту"]
    pure m) s.data

/-- `через\s+(\d+)\s+(день|дня|дней)` -/
def matchRelDaysRu (s : String) : Option Nat :=
  rxSearch (do
    RxP.lit "через".data
    RxP.wsPlus s.data.length
    let d ← RxP.numPlus s.data.length
    RxP.wsPlus s.data.length
    let _ ← RxP.alts ["день", "дня", "дней"]
    pure d) s.data

/-- `послезавтра(?:\s+(?:в\s+)?)?(\d{1,2})(?:[:\.](\d{2}))?\s*(утра|вечера|ночи|дня)?` -/
def matchDayAfterRu (s : String) : Option (Nat × Option Nat × Option String) :=
  rxSearch (do
    RxP.lit "послезавтра".data
    ruPrepP s.data.length
    ruClockP s.data.length) s.data

/-- `завтра(?:\s+(?:в\s+)?)?(\d{1,2})(?:[:\.](\d{2}))?\s*(утра|вечера|ночи|дня)?` -/
def matchTomorrowRu (s : String) : Option (Nat × Option Nat × Option String) :=
  rxSearch (do
    RxP.lit "завтра".data
    ruPrepP s.data.length
    ruClockP s.data.length) s.data

/-- `сегодня(?:\s+(?:в\s+)?)?(\d{1,2})(?:[:\.](\d{2}))?\s*(утра|вечера|ночи|дня)?` -/
def matchTodayRu (s : String) : Option (Nat × Option Nat × Option String) :=
  rxSearch (do
    RxP.lit "сегодня".data
    ruPrepP s.data.length
    ruClockP s.data.length) s.data

/-- `(понедельник|вторник|сред[ау]|четверг|пятниц[ау]|суббот[ау]|воскресенье)`
followed by the optional-preposition clock tail. -/
def matchWeekdayRu (s : String) : Option (String × Nat × Option Nat × Option String) :=
  rxSearch (do
    let w ← RxP.alts ["понедельник", "вторник", "среда", "среду", "четверг",
      "пятница", "пятницу", "суббота", "субботу", "воскресенье"]
    ruPrepP s.data.length
    let r ← ruClockP s.data.length
    pure (w, r)) s.data

/-- `^в\s+(\d{1,2})(?:[:\.](\d{2}))?\s*(утра|вечера|ночи|дня)?$` -/
def matchSimpleTimeRu (s : String) : Option (Nat × Option Nat × Option String) :=
  rxAtStart (do
    RxP.lit "в".data
    RxP.wsPlus s.data.length
    let r ← ruClockP s.data.length
    RxP.eos
    pure r) s

/-- `^(\d{1,2})\s+(утра|вечера|ночи|дня)$` -/
def matchTimeNoPrepRu (s : String) : Option (Nat × String) :=
  rxAtStart (do
    let h ← RxP.num12
    RxP.wsPlus s.data.length
    let q ← ruQualP
    RxP.eos
    pure (h, q)) s

/-- `^(\d{1,2})(?:[:\.](\d{2}))?\s*(утра|вечера|ночи|дня)?$` -/
def matchTimeOnlyRu (s : String) : Option (Nat × Option Nat × Option String) :=
  rxAtStart (do
    let r ← ruClockP s.data.length
    RxP.eos
    pure r) s

/-- `(\d{1,2})[\.\/](\d{1,2})(?:[\.\/](\d{2,4}))?(?:\s+(?:в\s+)?)?(\d{1,2})(?:[:\.](\d{2}))?\s*(утра|вечера|ночи|дня)?` -/
def matchDateDmyRu (s : String) :
    Option (Nat × Nat × Option Nat × Nat × Option Nat × Option String) :=
  rxSearch (do
    let d ← RxP.num12
    let _ ← RxP.chr (fun c => c = '.' || c = '/')
    let mo ← RxP.num12
    let y ← RxP.opt (do
      let _ ← RxP.chr (fun c => c = '.' || c = '/')
      RxP.num24)
    ruPrepP s.data.length
    let (h, mi, q) ← ruClockP s.data.length
    pure (d, mo, y, h, mi, q)) s.data

/-- `(\d{1,2})\s+(январ[яю]|феврал[яю]|март[ау]|апрел[яю]|ма[яю]|июн[яю]|июл[яю]|август[ау]|сентябр[яю]|октябр[яю]|ноябр[яю]|декабр[яю])(?:\s+(\d{4}))?(?:\s+(?:в\s+)?)?(\d{1,2})(?:[:\.](\d{2}))?\s*(утра|вечера|ночи|дня)?` -/
def matchDateWordsRu (s : String) :
    Option (Nat × String × Option Nat × Nat × Option Nat × Option String) :=
  rxSearch (do
    let d ← RxP.num12
    RxP.wsPlus s.data.length
    let mo ← RxP.alts ["января", "январю", "февраля", "февралю", "марта",
      "марту", "апреля", "апрелю", "мая", "маю", "июня", "июню", "июля",
      "июлю", "августа", "августу", "сентября", "сентябрю", "октября",
      "октябрю", "ноября", "ноябрю", "декабря", "декабрю"]
    let y ← RxP.opt (do
      RxP.wsPlus s.data.length
      let ds ← RxP.digitsExact 4
      pure (natOfDigits ds))
    ruPrepP s.data.length
    let (h, mi, q) ← ruClockP s.data.length
    pure (d, mo, y, h, mi, q)) s.data

/-! ### English patterns (`self.en_patterns`, src/utils/time_parser.py:42) -/

/-- `(AM|PM|am|pm)` -/
def enAmPmP : RxP String := RxP.alts ["AM", "PM", "am", "pm"]

/-- `(?:\s+(?:at\s+)?)?` -/
def enPrepP (fuel : Nat) : RxP Unit := do
  let _ ← RxP.opt (do
    RxP.wsPlus fuel
    let _ ← RxP.opt (do
      RxP.lit "at".data
      RxP.wsPlus fuel)
    pure ())
  pure ()

/-- `(\d{1,2})(?::(\d{2}))?\s*(AM|PM|am|pm)?` -/
def enClockP (fuel : Nat) : RxP (Nat × Option Nat × Option String) := do
  let h ← RxP.num12
  let mm ← RxP.opt (do
    let _ ← RxP.chr (fun c => c = ':')
    let ds ← RxP.digitsExact 2
    pure (natOfDigits ds))
  RxP.wsUpTo fuel
  let q ← RxP.opt enAmPmP
  pure (h, mm, q)

/-- `in\s+(\d+)\s+(hour|hours)(?:\s+and\s+(\d+)\s+(minute|minutes))?` -/
def matchRelHoursEn (s : String) : Option (Nat × Option Nat) :=
  rxSearch (do
    RxP.lit "in".data
    RxP.wsPlus s.data.length
    let h ← RxP.numPlus s.data.length
    RxP.wsPlus s.data.length
    let _ ← RxP.alts ["hour", "hours"]
    let mm ← RxP.opt (do
      RxP.wsPlus s.data.length
      RxP.lit "and".data
      RxP.wsPlus s.data.length
      let m ← RxP.numPlus s.data.length
      RxP.wsPlus s.data.length
      let _ ← RxP.alts ["minute", "minutes"]
      pure m)
    pure (h, mm)) s.data

/-- `in\s+(\d+)\s+(minute|minutes)` -/
def matchRelMinutesEn (s : String) : Option Nat :=
  rxSearch (do
    RxP.lit "in".data
    RxP.wsPlus s.data.length
    let m ← RxP.numPlus s.data.length
    RxP.wsPlus s.data.length
    let _ ← RxP.alts ["minute", "minutes"]
    pure m) s.data

/-- `in\s+(\d+)\s+(day|days)` -/
def matchRelDaysEn (s : String) : Option Nat :=
  rxSearch (do
    RxP.lit "in".data
    RxP.wsPlus s.data.length
    let d ← RxP.numPlus s.data.length
    RxP.wsPlus s.data.length
    let _ ← RxP.alts ["day", "days"]
    pure d) s.data

/-- `day\s+after\s+tomorrow(?:\s+(?:at\s+)?)?(\d{1,2})(?::(\d{2}))?\s*(AM|PM|am|pm)?` -/
def matchDayAfterEn (s : String) : Option (Nat × Option Nat × Option String) :=
  rxSearch (do
    RxP.lit "day".data
    RxP.wsPlus s.data.length
    RxP.lit "after".data
    RxP.wsPlus s.data.length
    RxP.lit "tomorrow".data
    enPrepP s.data.length
    enClockP s.data.length) s.data

/-- `tomorrow(?:\s+(?:at\s+)?)?(\d{1,2})(?::(\d{2}))?\s*(AM|PM|am|pm)?` -/
def matchTomorrowEn (s : String) : Option (Nat × Option Nat × Option String) :=
  rxSearch (do
    RxP.lit "tomorrow".data
    enPrepP s.data.length
    enClockP s.data.length) s.data

/-- `today(?:\s+(?:at\s+)?)?(\d{1,2})(?::(\d{2}))?\s*(AM|PM|am|pm)?` -/
def matchTodayEn (s : String) : Option (Nat × Option Nat × Option String) :=
  rxSearch (do
    RxP.lit "today".data
    enPrepP s.data.length
    enClockP s.data.length) s.data

/-- `(monday|tuesday|wednesday|thursday|friday|saturday|sunday)` followed by
the optional-preposition clock tail. -/
def matchWeekdayEn (s : String) : Option (String × Nat × Option Nat × Option String) :=
  rxSearch (do
    let w ← RxP.alts ["monday", "tuesday", "wednesday", "thursday", "friday",
      "saturday", "sunday"]
    enPrepP s.data.length
    let r ← enClockP s.data.length
    pure (w, r)) s.data

/-- `^at\s+(\d{1,2})(?::(\d{2}))?\s*(AM|PM|am|pm)?$` -/
def matchSimpleTimeEn (s : String) : Option (Nat × Option Nat × Option String) :=
  rxAtStart (do
    RxP.lit "at".data
    RxP.wsPlus s.data.length
    let r ← enClockP s.data.length
    RxP.eos
    pure r) s

/-- `^(\d{1,2})(?::(\d{2}))?\s*(AM|PM|am|pm)$` -/
def matchTimeAmPmEn (s : String) : Option (Nat × Option Nat × String) :=
  rxAtStart (do
    let h ← RxP.num12
    let mm ← RxP.opt (do
      let _ ← RxP.chr (fun c => c = ':')
      let ds ← RxP.digitsExact 2
      pure (natOfDigits ds))
    RxP.wsUpTo s.data.length
    let q ← enAmPmP
    RxP.eos
    pure (h, mm, q)) s

/-- `^(\d{1,2})(?::(\d{2}))?\s*(AM|PM|am|pm)?$` -/
def matchTimeOnlyEn (s : String) : Option (Nat × Option Nat × Option String) :=
  rxAtStart (do
    let r ← enClockP s.data.length
    RxP.eos
    pure r) s

/-- `(\d{1,2})[\/\-](\d{1,2})(?:[\/\-](\d{2,4}))?(?:\s+(?:at\s+)?)?(\d{1,2})(?::(\d{2}))?\s*(AM|PM|am|pm)?` -/
def matchDateMdyEn (s : String) :
    Option (Nat × Nat × Option Nat × Nat × Option Nat × Option String) :=
  rxSearch (do
    let mo ← RxP.num12
    let _ ← RxP.chr (fun c => c = '/' || c = '-')
    let d ← RxP.num12
    let y ← RxP.opt (do
      let _ ← RxP.chr (fun c => c = '/' || c = '-')
      RxP.num24)
    enPrepP s.data.length
    let (h, mi, q) ← enClockP s.data.length
    pure (mo, d, y, h, mi, q)) s.data

/-- `(january|…|december)\s+(\d{1,2})(?:st|nd|rd|th)?(?:\s+(\d{4}))?(?:\s+(?:at\s+)?)?(\d{1,2})(?::(\d{2}))?\s*(AM|PM|am|pm)?` -/
def matchDateWordsEn (s : String) :
    Option (String × Nat × Option Nat × Nat × Option Nat × Option String) :=
  rxSearch (do
    let mo ← RxP.alts ["january", "february", "march", "april", "may", "june",
      "july", "august", "september", "october", "november", "december"]
    RxP.wsPlus s.data.length
    let d ← RxP.num12
    let _ ← RxP.opt (RxP.alts ["st", "nd", "rd", "th"])
    let y ← RxP.opt (do
      RxP.wsPlus s.data.length
      let ds ← RxP.digitsExact 4
      pure (natOfDigits ds))
    enPrepP s.data.length
    let (h, mi, q) ← enClockP s.data.length
    pure (mo, d, y, h, mi, q)) s.data

/-! ### Dictionaries (src/utils/time_parser.py:64-85) -/

def ru_months : List (String × Int) :=
  [("января", 1), ("февраля", 2), ("марта", 3), ("апреля", 4), ("мая", 5),
   ("июня", 6), ("июля", 7), ("августа", 8), ("сентября", 9),
   ("октября", 10), ("ноября", 11), ("декабря", 12)]

def en_months : List (String × Int) :=
  [("january", 1), ("february", 2), ("march", 3), ("april", 4),
   ("may", 5), ("june", 6), ("july", 7), ("august", 8),
   ("september", 9), ("october", 10), ("november", 11), ("december", 12)]

def ru_weekdays : List (String × Int) :=
  [("понедельник", 0), ("вторник", 1), ("среду", 2), ("среда", 2),
   ("четверг", 3), ("пятницу", 4), ("пятница", 4),
   ("субботу", 5), ("суббота", 5), ("воскресенье", 6)]

def en_weekdays : List (String × Int) :=
  [("monday", 0), ("tuesday", 1), ("wednesday", 2),
   ("thursday", 3), ("friday", 4), ("saturday", 5), ("sunday", 6)]

/-! ### Hour adjustment and weekday resolution
(src/utils/time_parser.py:494-530) -/

/-- `TimeParser._adjust_hour_ru` (line 494).  A captured qualifier is never
the empty string, so Python's truthiness test on it is `Option.isSome`. -/
def adjust_hour_ru (hour : Int) (time_of_day : Option String) : Int :=
  match time_of_day with
  | none => hour
  | some t =>
    let t2 := pyLower t
    if t2 = "дня" ∨ t2 = "вечера" then
      if hour < 12 then hour + 12 else hour
    else if t2 = "ночи" ∧ hour = 12 then 0
    else hour

/-- `TimeParser._adjust_hour_en` (line 505).  After the `if am_pm:` block the
source falls through to `return hour` for both `hour <= 12` and above. -/
def adjust_hour_en (hour : Int) (am_pm : Option String) : Int :=
  match am_pm with
  | none => hour
  | some a =>
    let a2 := pyUpper a
    if a2 = "AM" then (if hour = 12 then 0 else hour)
    else if a2 = "PM" then (if hour = 12 then 12 else hour + 12)
    else hour

/-- `TimeParser._get_next_weekday` (line 523). -/
def get_next_weekday (base_time : PyDateTime) (weekday : Int) : PyDateTime :=
  let days_ahead := weekday - base_time.weekday
  let days_ahead2 := if days_ahead ≤ 0 then days_ahead + 7 else days_ahead
  (base_time.addDays days_ahead2).truncToMinute

/-! ## `TimeParser._parse_ru_fixed` / `_parse_en_fixed`
(src/utils/time_parser.py:137-298 and 300-462)

Python's `return` inside an `if match:` block gives a first-match-wins
cascade; a failed dictionary lookup or a caught `ValueError` falls through
to the next stage, which we model by giving the later stages their own
definitions.  The `timezone` argument only builds `user_tz` in the source;
in the single-timezone model it is carried but unused. -/

inductive PyErr
  | valueError
deriving DecidableEq, Repr

/-- The values stored under `'adjusted'` in `extra_info`: Python `True`
(from the bare-time branches) or the string `'tomorrow'` (from step 3 of
`parse`).  Both are truthy. -/
inductive AdjVal
  | pyTrue
  | pyTomorrow
deriving DecidableEq, Repr

/-- The `extra_info` dictionary: only the `'adjusted'` key is ever used. -/
structure ExtraInfo where
  adjusted : Option AdjVal
deriving DecidableEq, Repr

/-- The empty dictionary `{}`. -/
def noInfo : ExtraInfo := ⟨none⟩

/-- The triple `(result, parse_type, extra_info)`. -/
abbrev ParseTriple := Option PyDateTime × String × ExtraInfo

/-- Stage 9b of `_parse_ru_fixed`: the worded-date pattern, then the final
`return None, "not_parsed", {}`. -/
def parse_ru_fixed_date_words (time_str : String) (base_time : PyDateTime) :
    Except PyErr ParseTriple :=
  match matchDateWordsRu time_str with
  | some (day, month_ru, yopt, h, mopt, q) =>
    let year : Int := match yopt with | some y => (y : Int) | none => base_time.year
    (match ru_months.lookup month_ru with
     | some month =>
       let hour := adjust_hour_ru h q
       let minute : Int := mopt.getD 0
       (match mkDatetime year month day hour minute with
        | some result => .ok (some result, "date_dmy_words", noInfo)
        | none => .ok (none, "not_parsed", noInfo))
     | none => .ok (none, "not_parsed", noInfo))
  | none => .ok (none, "not_parsed", noInfo)

/-- Stage 9a of `_parse_ru_fixed`: the numeric-date pattern (a `ValueError`
from the `datetime` constructor is caught and falls through). -/
def parse_ru_fixed_dates (time_str : String) (base_time : PyDateTime) :
    Except PyErr ParseTriple :=
  match matchDateDmyRu time_str with
  | some (day, month, yopt, h, mopt, q) =>
    let year0 : Int := match yopt with | some y => (y : Int) | none => base_time.year
    let year : Int := if year0 < 100 then year0 + 2000 else year0
    let hour := adjust_hour_ru h q
    let minute : Int := mopt.getD 0
    (match mkDatetime year month day hour minute with
     | some result => .ok (some result, "date_dmy", noInfo)
     | none => parse_ru_fixed_date_words time_str base_time)
  | none => parse_ru_fixed_date_words time_str base_time

/-- Stages 6-8 of `_parse_ru_fixed`: simple time with preposition, time
without preposition, bare time; each rolls a non-future same-day result to
tomorrow with `{'adjusted': True}`.  The unguarded `base_time.replace(...)`
raises on an out-of-range hour. -/
def parse_ru_fixed_from_simple (time_str : String) (base_time : PyDateTime) :
    Except PyErr ParseTriple :=
  match matchSimpleTimeRu time_str with
  | some (h, mopt, q) =>
    let hour := adjust_hour_ru h q
    let minute : Int := mopt.getD 0
    (match base_time.replaceTime hour minute with
     | some result =>
       if base_time < result then .ok (some result, "simple_time_today", noInfo)
       else .ok (some (result.addDays 1), "simple_time_tomorrow", ⟨some .pyTrue⟩)
     | none => .error .valueError)
  | none =>
  match matchTimeNoPrepRu time_str with
  | some (h, q) =>
    let hour := adjust_hour_ru h (some q)
    (match base_time.replaceTime hour 0 with
     | some result =>
       if base_time < result then .ok (some result, "time_no_prep_today", noInfo)
       else .ok (some (result.addDays 1), "time_no_prep_tomorrow", ⟨some .pyTrue⟩)
     | none => .error .valueError)
  | none =>
  match matchTimeOnlyRu time_str with
  | some (h, mopt, q) =>
    let hour := adjust_hour_ru h q
    let minute : Int := mopt.getD 0
    (match base_time.replaceTime hour minute with
     | some result =>
       if base_time < result then .ok (some result, "time_only_today", noInfo)
       else .ok (some (result.addDays 1), "time_only_tomorrow", ⟨some .pyTrue⟩)
     | none => .error .valueError)
  | none => parse_ru_fixed_dates time_str base_time

/-- `TimeParser._parse_ru_fixed` (src/utils/time_parser.py:137): stages 1-5,
falling through to `parse_ru_fixed_from_simple`. -/
def parse_ru_fixed (time_str : String) (base_time : PyDateTime)
    (timezone : String) : Except PyErr ParseTriple :=
  match matchRelHoursRu time_str with
  | some (hs, mopt) =>
    let hours : Int := hs
    let minutes : Int := mopt.getD 0
    .ok (some (base_time.addUs (hours * usPerHour + minutes * usPerMinute)),
         "relative_hours", noInfo)
  | none =>
  match matchRelMinutesRu time_str with
  | some m => .ok (some (base_time.addMinutes m), "relative_minutes", noInfo)
  | none =>
  match matchRelDaysRu time_str with
  | some d => .ok (some (base_time.addDays d), "relative_days", noInfo)
  | none =>
  match matchDayAfterRu time_str with
  | some (h, mopt, q) =>
    let hour := adjust_hour_ru h q
    let minute : Int := mopt.getD 0
    (match (base_time.addDays 2).replaceTime hour minute with
     | some result => .ok (some result, "day_after_tomorrow", noInfo)
     | none => .error .valueError)
  | none =>
  match matchTomorrowRu time_str with
  | some (h, mopt, q) =>
    let hour := adjust_hour_ru h q
    let minute : Int := mopt.getD 0
    (match (base_time.addDays 1).replaceTime hour minute with
     | some result => .ok (some result, "tomorrow", noInfo)
     | none => .error .valueError)
  | none =>
  match matchTodayRu time_str with
  | some (h, mopt, q) =>
    let hour := adjust_hour_ru h q
    let minute : Int := mopt.getD 0
    (match base_time.replaceTime hour minute with
     | some result => .ok (some result, "today", noInfo)
     | none => .error .valueError)
  | none =>
  match matchWeekdayRu time_str with
  | some (weekday_ru, h, mopt, q) =>
    (match ru_weekdays.lookup weekday_ru with
     | some weekday_num =>
       let hour := adjust_hour_ru h q
       let minute : Int := mopt.getD 0
       (match (get_next_weekday base_time weekday_num).replaceTime hour minute with
        | some result => .ok (some result, "weekday", noInfo)
        | none => .error .valueError)
     | none => parse_ru_fixed_from_simple time_str base_time)
  | none => parse_ru_fixed_from_simple time_str base_time

/-- Stage 9b of `_parse_en_fixed`: the worded-date pattern. -/
def parse_en_fixed_date_words (time_str : String) (base_time : PyDateTime) :
    Except PyErr ParseTriple :=
  match matchDateWordsEn time_str with
  | some (month_en, day, yopt, h, mopt, q) =>
    let year : Int := match yopt with | some y => (y : Int) | none => base_time.year
    (match en_months.lookup month_en with
     | some month =>
       let hour := adjust_hour_en h q
       let minute : Int := mopt.getD 0
       (match mkDatetime year month day hour minute with
        | some result => .ok (some result, "date_mdy_words", noInfo)
        | none => .ok (none, "not_parsed", noInfo))
     | none => .ok (none, "not_parsed", noInfo))
  | none => .ok (none, "not_parsed", noInfo)

/-- Stage 9a of `_parse_en_fixed`: the numeric `M/D[/Y]` date pattern. -/
def parse_en_fixed_dates (time_str : String) (base_time : PyDateTime) :
    Except PyErr ParseTriple :=
  match matchDateMdyEn time_str with
  | some (month, day, yopt, h, mopt, q) =>
    let year0 : Int := match yopt with | some y => (y : Int) | none => base_time.year
    let year : Int := if year0 < 100 then year0 + 2000 else year0
    let hour := adjust_hour_en h q
    let minute : Int := mopt.getD 0
    (match mkDatetime year month day hour minute with
     | some result => .ok (some result, "date_mdy", noInfo)
     | none => parse_en_fixed_date_words time_str base_time)
  | none => parse_en_fixed_date_words time_str base_time

/-- Stages 6-8 of `_parse_en_fixed`: `at H[:MM]`, `H[:MM] AM/PM`, bare time. -/
def parse_en_fixed_from_simple (time_str : String) (base_time : PyDateTime) :
    Except PyErr ParseTriple :=
  match matchSimpleTimeEn time_str with
  | some (h, mopt, q) =>
    let hour := adjust_hour_en h q
    let minute : Int := mopt.getD 0
    (match base_time.replaceTime hour minute with
     | some result =>
       if base_time < result then .ok (some result, "simple_time_today", noInfo)
       else .ok (some (result.addDays 1), "simple_time_tomorrow", ⟨some .pyTrue⟩)
     | none => .error .valueError)
  | none =>
  match matchTimeAmPmEn time_str with
  | some (h, mopt, q) =>
    let hour := adjust_hour_en h (some q)
    let minute : Int := mopt.getD 0
    (match base_time.replaceTime hour minute with
     | some result =>
       if base_time < result then .ok (some result, "time_ampm_today", noInfo)
       else .ok (some (result.addDays 1), "time_ampm_tomorrow", ⟨some .pyTrue⟩)
     | none => .error .valueError)
  | none =>
  match matchTimeOnlyEn time_str with
  | some (h, mopt, q) =>
    let hour := adjust_hour_en h q
    let minute : Int := mopt.getD 0
    (match base_time.replaceTime hour minute with
     | some result =>
       if base_time < result then .ok (some result, "time_only_today", noInfo)
       else .ok (some (result.addDays 1), "time_only_tomorrow", ⟨some .pyTrue⟩)
     | none => .error .valueError)
  | none => parse_en_fixed_dates time_str base_time

/-- `TimeParser._parse_en_fixed` (src/utils/time_parser.py:300): stages 1-5,
falling through to `parse_en_fixed_from_simple`. -/
def parse_en_fixed (time_str : String) (base_time : PyDateTime)
    (timezone : String) : Except PyErr ParseTriple :=
  match matchRelHoursEn time_str with
  | some (hs, mopt) =>
    let hours : Int := hs
    let minutes : Int := mopt.getD 0
    .ok (some (base_time.addUs (hours * usPerHour + minutes * usPerMinute)),
         "relative_hours", noInfo)
  | none =>
  match matchRelMinutesEn time_str with
  | some m => .ok (some (base_time.addMinutes m), "relative_minutes", noInfo)
  | none =>
  match matchRelDaysEn time_str with
  | some d => .ok (some (base_time.addDays d), "relative_days", noInfo)
  | none =>
  match matchDayAfterEn time_str with
  | some (h, mopt, q) =>
    let hour := adjust_hour_en h q
    let minute : Int := mopt.getD 0
    (match (base_time.addDays 2).replaceTime hour minute with
     | some result => .ok (some result, "day_after_tomorrow", noInfo)
     | none => .error .valueError)
  | none =>
  match matchTomorrowEn time_str with
  | some (h, mopt, q) =>
    let hour := adjust_hour_en h q
    let minute : Int := mopt.getD 0
    (match (base_time.addDays 1).replaceTime hour minute with
     | some result => .ok (some result, "tomorrow", noInfo)
     | none => .error .valueError)
  | none =>
  match matchTodayEn time_str with
  | some (h, mopt, q) =>
    let hour := adjust_hour_en h q
    let minute : Int := mopt.getD 0
    (match base_time.replaceTime hour minute with
     | some result => .ok (some result, "today", noInfo)
     | none => .error .valueError)
  | none =>
  match matchWeekdayEn time_str with
  | some (weekday_en, h, mopt, q) =>
    (match en_weekdays.lookup weekday_en with
     | some weekday_num =>
       let hour := adjust_hour_en h q
       let minute : Int := mopt.getD 0
       (match (get_next_weekday base_time weekday_num).replaceTime hour minute with
        | some result => .ok (some result, "weekday", noInfo)
        | none => .error .valueError)
     | none => parse_en_fixed_from_simple time_str base_time)
  | none => parse_en_fixed_from_simple time_str base_time

/-! ## `TimeParser.parse` (src/utils/time_parser.py:87-135) -/

/-- `TimeParser._try_dateparser` (line 465).  The two external library calls
(`dateparser.parse` and the `search_dates` fallback, both wrapped in a
`try/except` that returns no-match on any library exception) are modelled by
the single oracle `dp`; the repository's own second/microsecond truncation
of a successful answer and the rule tags are embedded. -/
def try_dateparser (dp : String → PyDateTime → Option PyDateTime)
    (time_str : String) (base_time : PyDateTime) :
    Option PyDateTime × String :=
  match dp time_str base_time with
  | some parsed => (some parsed.truncToMinute, "dateparser")
  | none => (none, "dateparser_failed")

/-- The parser's only mutable state: the `self._cache` dictionary, keyed by
`f"{time_str}_{language}_{timezone}"`.  Python dict assignment is modelled
by prepending (first hit shadows older entries, matching last-write-wins). -/
structure ParserState where
  cache : List (String × ParseTriple)
deriving DecidableEq, Repr

/-- Steps 3-5 of `TimeParser.parse` (lines 117-135), applied to the triple
produced by steps 1-2:
3. roll a non-future same-day result forward one day, setting
   `extra_info['adjusted'] = 'tomorrow'`;
4. reject results more than `5*365` days ahead with `"too_far"` — this
   `return` happens before the cache write, so nothing is stored;
5. truncate seconds and microseconds, store in the cache and return. -/
def parse_postprocess (base_time : PyDateTime) (cache_key : String)
    (self : ParserState) (trip : ParseTriple) :
    Except PyErr (ParseTriple × ParserState) :=
  match trip with
  | (result0, parse_type, extra_info) =>
    let stepped : Option PyDateTime × ExtraInfo :=
      match result0 with
      | some r =>
        if r ≤ base_time then
          if r.dayIndex = base_time.dayIndex then
            (some (r.addDays 1), { extra_info with adjusted := some .pyTomorrow })
          else (some r, extra_info)
        else (some r, extra_info)
      | none => (none, extra_info)
    match stepped.1 with
    | some r =>
      if base_time.addDays 1825 < r then .ok ((none, "too_far", noInfo), self)
      else
        let out : ParseTriple := (some r.truncToMinute, parse_type, stepped.2)
        .ok (out, ⟨(cache_key, out) :: self.cache⟩)
    | none =>
      let out : ParseTriple := (none, parse_type, stepped.2)
      .ok (out, ⟨(cache_key, out) :: self.cache⟩)

/-- `TimeParser.parse` (line 87).  `base_time` defaults to the current clock
in the source when `None` is passed; we model the caller always supplying
it.  Steps 1-2 (the `dateparser` oracle, then the language's regex cascade)
are here; steps 3-5 are `parse_postprocess`. -/
def TimeParser.parse (dp : String → PyDateTime → Option PyDateTime)
    (self : ParserState) (time_str language timezone : String)
    (base_time : PyDateTime) :
    Except PyErr (ParseTriple × ParserState) :=
  if pyStrip time_str = "" then .ok ((none, "empty", noInfo), self)
  else
    let ts := pyLower (pyStrip time_str)
    let cache_key := ts ++ "_" ++ language ++ "_" ++ timezone
    match self.cache.lookup cache_key with
    | some r => .ok (r, self)
    | none =>
      let dpres := try_dateparser dp ts base_time
      let fixedres : Except PyErr ParseTriple :=
        match dpres.1 with
        | some r => .ok (some r, dpres.2, noInfo)
        | none =>
          if language = "ru" then parse_ru_fixed ts base_time timezone
          else parse_en_fixed ts base_time timezone
      match fixedres with
      | .error e => .error e
      | .ok trip => parse_postprocess base_time cache_key self trip

/-- `TimeParser.validate_time` (src/utils/time_parser.py:668), restricted to
the non-defaulted `base_time` case. -/
def validate_time (parsed_time : Option PyDateTime) (base_time : PyDateTime) :
    Bool × String :=
  match parsed_time with
  | none => (false, "Не удалось распознать время")
  | some p =>
    if p ≤ base_time then (false, "Время должно быть в будущем")
    else if base_time.addDays 1825 < p then
      (false, "Время слишком далеко в будущем (максимум 5 лет)")
    else (true, "OK")

/-! ## Claims about the parser -/

theorem PyDateTime.le_def (a b : PyDateTime) : a ≤ b ↔ a.us ≤ b.us := Iff.rfl

theorem PyDateTime.lt_def (a b : PyDateTime) : a < b ↔ a.us < b.us := Iff.rfl

/-- Claim C5 (confirmed): the hour-adjustment helpers implement the spec's
12-hour conventions — English: 12 AM ↦ 0, 12 PM ↦ 12, other hours +12 under
PM, AM a no-op; Russian: дня/вечера add 12 to an hour below 12, ночи maps an
explicit 12 to 0, утра is a no-op; with no qualifier the hour is unchanged. -/
theorem claimC5 :
    (∀ h : Int, adjust_hour_en h (some "AM") = if h = 12 then 0 else h) ∧
    (∀ h : Int, adjust_hour_en h (some "am") = if h = 12 then 0 else h) ∧
    (∀ h : Int, adjust_hour_en h (some "PM") = if h = 12 then 12 else h + 12) ∧
    (∀ h : Int, adjust_hour_en h (some "pm") = if h = 12 then 12 else h + 12) ∧
    (∀ h : Int, adjust_hour_en h none = h) ∧
    (∀ h : Int, adjust_hour_ru h (some "дня") = if h < 12 then h + 12 else h) ∧
    (∀ h : Int, adjust_hour_ru h (some "вечера") = if h < 12 then h + 12 else h) ∧
    (∀ h : Int, adjust_hour_ru h (some "ночи") = if h = 12 then 0 else h) ∧
    (∀ h : Int, adjust_hour_ru h (some "утра") = h) ∧
    (∀ h : Int, adjust_hour_ru h none = h) := by
  refine ⟨fun h => ?_, fun h => ?_, fun h => ?_, fun h => ?_, fun h => rfl,
    fun h => ?_, fun h => ?_, fun h => ?_, fun h => ?_, fun h => rfl⟩
  · simp only [adjust_hour_en]
    rw [show pyUpper "AM" = "AM" from rfl, if_pos rfl]
  · simp only [adjust_hour_en]
    rw [show pyUpper "am" = "AM" from rfl, if_pos rfl]
  · simp only [adjust_hour_en]
    rw [show pyUpper "PM" = "PM" from rfl, if_neg (by decide), if_pos rfl]
  · simp only [adjust_hour_en]
    rw [show pyUpper "pm" = "PM" from rfl, if_neg (by decide), if_pos rfl]
  · simp only [adjust_hour_ru]
    rw [show pyLower "дня" = "дня" from rfl, if_pos (Or.inl rfl)]
  · simp only [adjust_hour_ru]
    rw [show pyLower "вечера" = "вечера" from rfl, if_pos (Or.inr rfl)]
  · simp only [adjust_hour_ru]
    rw [show pyLower "ночи" = "ночи" from rfl, if_neg (by decide)]
    by_cases h12 : h = 12
    · rw [if_pos ⟨rfl, h12⟩, if_pos h12]
    · rw [if_neg (fun hc => h12 hc.2), if_neg h12]
  · simp only [adjust_hour_ru]
    rw [show pyLower "утра" = "утра" from rfl, if_neg (by decide),
      if_neg (fun hc => by exact absurd hc.1 (by decide))]

/-- A dateparser oracle that finds nothing (the library recognized no date;
any theorem quantified over `dp` also covers the other behaviours). -/
def dpNone : String → PyDateTime → Option PyDateTime := fun _ _ => none

/-- A freshly constructed `TimeParser` (empty memoization cache). -/
def emptyState : ParserState := ⟨[]⟩

/-- Reference instant 2024-03-15 12:00. -/
def base2024 : PyDateTime :=
  ⟨daysFromCivil 2024 3 15 * usPerDay + 12 * usPerHour⟩

/-- Claim C6 (code_bug): on input `"25:00"` — which matches the bare-time
shape with an out-of-range hour — `parse` does not return a `"not_parsed"`
no-match value; the unguarded `base_time.replace(hour=25, ...)` in the
`time_only` branch raises `ValueError` across the core boundary, in both
language cascades. -/
theorem claimC6 :
    TimeParser.parse dpNone emptyState "25:00" "en" "America/New_York" base2024 =
      .error .valueError ∧
    TimeParser.parse dpNone emptyState "25:00" "ru" "Europe/Moscow" base2024 =
      .error .valueError := by
  constructor <;> rfl

/-! ### Result-shape lemmas: every instant produced by the regex cascades is
either minute-aligned (built by `replace`/the `datetime` constructor) or the
reference instant plus a whole non-negative number of minutes (the relative
branches). -/

theorem replaceTime_aligned (d : PyDateTime) (h m : Int) (r : PyDateTime)
    (hr : d.replaceTime h m = some r) : r.us % usPerMinute = 0 := by
  unfold PyDateTime.replaceTime at hr
  split at hr
  · cases hr
    simp only [PyDateTime.dayIndex, usPerDay, usPerHour, usPerMinute]
    omega
  · cases hr

theorem mkDatetime_aligned (y mo d h mi : Int) (r : PyDateTime)
    (hr : mkDatetime y mo d h mi = some r) : r.us % usPerMinute = 0 := by
  unfold mkDatetime at hr
  split at hr
  · cases hr
    simp only [usPerDay, usPerHour, usPerMinute]
    omega
  · cases hr

theorem addDays_aligned (r : PyDateTime) (n : Int)
    (hal : r.us % usPerMinute = 0) : (r.addDays n).us % usPerMinute = 0 := by
  simp only [PyDateTime.addDays, PyDateTime.addUs, usPerDay, usPerMinute] at *
  omega

theorem shape_ru_date_words (s : String) (base : PyDateTime)
    (r : PyDateTime) (tag : String) (info : ExtraInfo)
    (h : parse_ru_fixed_date_words s base = .ok (some r, tag, info)) :
    r.us % usPerMinute = 0 := by
  unfold parse_ru_fixed_date_words at h
  repeat' (first | split at h | simp only [] at h)
  all_goals try cases h
  all_goals exact mkDatetime_aligned _ _ _ _ _ _ (by assumption)

theorem shape_ru_dates (s : String) (base : PyDateTime)
    (r : PyDateTime) (tag : String) (info : ExtraInfo)
    (h : parse_ru_fixed_dates s base = .ok (some r, tag, info)) :
    r.us % usPerMinute = 0 := by
  unfold parse_ru_fixed_dates at h
  repeat' (first | split at h | simp only [] at h)
  all_goals try cases h
  all_goals first
    | exact shape_ru_date_words _ _ _ _ _ h
    | exact mkDatetime_aligned _ _ _ _ _ _ (by assumption)

theorem shape_ru_from_simple (s : String) (base : PyDateTime)
    (r : PyDateTime) (tag : String) (info : ExtraInfo)
    (h : parse_ru_fixed_from_simple s base = .ok (some r, tag, info)) :
    r.us % usPerMinute = 0 := by
  unfold parse_ru_fixed_from_simple at h
  repeat' (first | split at h | simp only [] at h)
  all_goals try cases h
  all_goals first
    | exact shape_ru_dates _ _ _ _ _ h
    | exact replaceTime_aligned _ _ _ _ (by assumption)
    | exact addDays_aligned _ _ (replaceTime_aligned _ _ _ _ (by assumption))

theorem shape_ru_fixed (s : String) (base : PyDateTime) (tz : String)
    (r : PyDateTime) (tag : String) (info : ExtraInfo)
    (h : parse_ru_fixed s base tz = .ok (some r, tag, info)) :
    r.us % usPerMinute = 0 ∨ ∃ k : Int, 0 ≤ k ∧ r.us = base.us + k * usPerMinute := by
  unfold parse_ru_fixed at h
  cases h1 : matchRelHoursRu s with
  | some v =>
    obtain ⟨hs, mopt⟩ := v
    simp only [h1] at h
    cases h
    right
    refine ⟨60 * (hs : Int) + ((mopt.getD 0 : Nat) : Int), by omega, ?_⟩
    simp only [PyDateTime.addUs, usPerHour, usPerMinute]
    omega
  | none =>
    simp only [h1] at h
    cases h2 : matchRelMinutesRu s with
    | some m =>
      simp only [h2] at h
      cases h
      right
      exact ⟨(m : Int), by omega, rfl⟩
    | none =>
      simp only [h2] at h
      cases h3 : matchRelDaysRu s with
      | some d =>
        simp only [h3] at h
        cases h
        right
        refine ⟨1440 * (d : Int), by omega, ?_⟩
        simp only [PyDateTime.addDays, PyDateTime.addUs, usPerDay, usPerMinute]
        omega
      | none =>
        simp only [h3] at h
        repeat' (first | split at h | simp only [] at h)
        all_goals try cases h
        all_goals left
        all_goals first
          | exact shape_ru_from_simple _ _ _ _ _ h
          | exact replaceTime_aligned _ _ _ _ (by assumption)

theorem shape_en_date_words (s : String) (base : PyDateTime)
    (r : PyDateTime) (tag : String) (info : ExtraInfo)
    (h : parse_en_fixed_date_words s base = .ok (some r, tag, info)) :
    r.us % usPerMinute = 0 := by
  unfold parse_en_fixed_date_words at h
  repeat' (first | split at h | simp only [] at h)
  all_goals try cases h
  all_goals exact mkDatetime_aligned _ _ _ _ _ _ (by assumption)

theorem shape_en_dates (s : String) (base : PyDateTime)
    (r : PyDateTime) (tag : String) (info : ExtraInfo)
    (h : parse_en_fixed_dates s base = .ok (some r, tag, info)) :
    r.us % usPerMinute = 0 := by
  unfold parse_en_fixed_dates at h
  repeat' (first | split at h | simp only [] at h)
  all_goals try cases h
  all_goals first
    | exact shape_en_date_words _ _ _ _ _ h
    | exact mkDatetime_aligned _ _ _ _ _ _ (by assumption)

theorem shape_en_from_simple (s : String) (base : PyDateTime)
    (r : PyDateTime) (tag : String) (info : ExtraInfo)
    (h : parse_en_fixed_from_simple s base = .ok (some r, tag, info)) :
    r.us % usPerMinute = 0 := by
  unfold parse_en_fixed_from_simple at h
  repeat' (first | split at h | simp only [] at h)
  all_goals try cases h
  all_goals first
    | exact shape_en_dates _ _ _ _ _ h
    | exact replaceTime_aligned _ _ _ _ (by assumption)
    | exact addDays_aligned _ _ (replaceTime_aligned _ _ _ _ (by assumption))

theorem shape_en_fixed (s : String) (base : PyDateTime) (tz : String)
    (r : PyDateTime) (tag : String) (info : ExtraInfo)
    (h : parse_en_fixed s base tz = .ok (some r, tag, info)) :
    r.us % usPerMinute = 0 ∨ ∃ k : Int, 0 ≤ k ∧ r.us = base.us + k * usPerMinute := by
  unfold parse_en_fixed at h
  cases h1 : matchRelHoursEn s with
  | some v =>
    obtain ⟨hs, mopt⟩ := v
    simp only [h1] at h
    cases h
    right
    refine ⟨60 * (hs : Int) + ((mopt.getD 0 : Nat) : Int), by omega, ?_⟩
    simp only [PyDateTime.addUs, usPerHour, usPerMinute]
    omega
  | none =>
    simp only [h1] at h
    cases h2 : matchRelMinutesEn s with
    | some m =>
      simp only [h2] at h
      cases h
      right
      exact ⟨(m : Int), by omega, rfl⟩
    | none =>
      simp only [h2] at h
      cases h3 : matchRelDaysEn s with
      | some d =>
        simp only [h3] at h
        cases h
        right
        refine ⟨1440 * (d : Int), by omega, ?_⟩
        simp only [PyDateTime.addDays, PyDateTime.addUs, usPerDay, usPerMinute]
        omega
      | none =>
        simp only [h3] at h
        repeat' (first | split at h | simp only [] at h)
        all_goals try cases h
        all_goals left
        all_goals first
          | exact shape_en_from_simple _ _ _ _ _ h
          | exact replaceTime_aligned _ _ _ _ (by assumption)

theorem truncToMinute_aligned (r : PyDateTime) :
    r.truncToMinute.us % usPerMinute = 0 := by
  simp only [PyDateTime.truncToMinute, usPerMinute]
  omega

theorem trunc_gt_of_gt (base r : PyDateTime)
    (hsh : r.us % usPerMinute = 0 ∨ ∃ k : Int, 0 ≤ k ∧ r.us = base.us + k * usPerMinute)
    (hgt : base < r) : base < r.truncToMinute := by
  rw [PyDateTime.lt_def] at *
  simp only [PyDateTime.truncToMinute, usPerMinute] at *
  rcases hsh with hal | ⟨k, hk, heq⟩ <;> omega

theorem same_day_roll (base r : PyDateTime)
    (hsh : r.us % usPerMinute = 0 ∨ ∃ k : Int, 0 ≤ k ∧ r.us = base.us + k * usPerMinute)
    (hle : r ≤ base) (hday : r.dayIndex = base.dayIndex) :
    base < (r.addDays 1).truncToMinute := by
  rw [PyDateTime.le_def] at hle
  rw [PyDateTime.lt_def]
  simp only [PyDateTime.truncToMinute, PyDateTime.addDays, PyDateTime.addUs,
    PyDateTime.dayIndex, usPerMinute, usPerDay] at *
  rcases hsh with hal | ⟨k, hk, heq⟩ <;> omega

theorem past_day_tail (base r : PyDateTime) (hle : r ≤ base)
    (hday : r.dayIndex ≠ base.dayIndex) :
    r.truncToMinute.dayIndex < base.dayIndex ∧ r.truncToMinute ≤ base := by
  rw [PyDateTime.le_def] at hle
  rw [PyDateTime.le_def]
  simp only [PyDateTime.truncToMinute, PyDateTime.dayIndex, usPerMinute,
    usPerDay] at *
  constructor <;> omega

/-! ### Equation lemmas for `parse_postprocess` -/

theorem postprocess_none (base : PyDateTime) (key : String) (st : ParserState)
    (tag0 : String) (info0 : ExtraInfo) :
    parse_postprocess base key st (none, tag0, info0) =
      .ok ((none, tag0, info0), ⟨(key, (none, tag0, info0)) :: st.cache⟩) := rfl

theorem postprocess_of_gt (base : PyDateTime) (key : String) (st : ParserState)
    (r0 : PyDateTime) (tag0 : String) (info0 : ExtraInfo)
    (hgt : base < r0) (hceil : ¬ base.addDays 1825 < r0) :
    parse_postprocess base key st (some r0, tag0, info0) =
      .ok ((some r0.truncToMinute, tag0, info0),
           ⟨(key, (some r0.truncToMinute, tag0, info0)) :: st.cache⟩) := by
  have hnle : ¬ r0 ≤ base := by
    rw [PyDateTime.le_def]
    rw [PyDateTime.lt_def] at hgt
    omega
  simp only [parse_postprocess, if_neg hnle, if_neg hceil]

theorem postprocess_of_same_day (base : PyDateTime) (key : String)
    (st : ParserState) (r0 : PyDateTime) (tag0 : String) (info0 : ExtraInfo)
    (hle : r0 ≤ base) (hday : r0.dayIndex = base.dayIndex) :
    parse_postprocess base key st (some r0, tag0, info0) =
      .ok ((some ((r0.addDays 1).truncToMinute), tag0,
            { info0 with adjusted := some .pyTomorrow }),
           ⟨(key, (some ((r0.addDays 1).truncToMinute), tag0,
             { info0 with adjusted := some .pyTomorrow })) :: st.cache⟩) := by
  have hceil : ¬ base.addDays 1825 < r0.addDays 1 := by
    rw [PyDateTime.lt_def, PyDateTime.le_def] at *
    simp only [PyDateTime.addDays, PyDateTime.addUs, usPerDay] at *
    omega
  simp only [parse_postprocess, if_pos hle, if_pos hday, if_neg hceil]

theorem postprocess_of_past_day (base : PyDateTime) (key : String)
    (st : ParserState) (r0 : PyDateTime) (tag0 : String) (info0 : ExtraInfo)
    (hle : r0 ≤ base) (hday : ¬ r0.dayIndex = base.dayIndex) :
    parse_postprocess base key st (some r0, tag0, info0) =
      .ok ((some r0.truncToMinute, tag0, info0),
           ⟨(key, (some r0.truncToMinute, tag0, info0)) :: st.cache⟩) := by
  have hceil : ¬ base.addDays 1825 < r0 := by
    rw [PyDateTime.lt_def, PyDateTime.le_def] at *
    simp only [PyDateTime.addDays, PyDateTime.addUs, usPerDay] at *
    omega
  simp only [parse_postprocess, if_pos hle, if_neg hday, if_neg hceil]

theorem postprocess_of_too_far (base : PyDateTime) (key : String)
    (st : ParserState) (r0 : PyDateTime) (tag0 : String) (info0 : ExtraInfo)
    (hgt : base < r0) (hceil : base.addDays 1825 < r0) :
    parse_postprocess base key st (some r0, tag0, info0) =
      .ok ((none, "too_far", noInfo), st) := by
  have hnle : ¬ r0 ≤ base := by
    rw [PyDateTime.le_def]
    rw [PyDateTime.lt_def] at hgt
    omega
  simp only [parse_postprocess, if_neg hnle, if_pos hceil]

/-- Any instant that survives `parse_postprocess` is strictly after the
reference or lies on a strictly earlier calendar day. -/
theorem postprocess_future (base : PyDateTime) (key : String) (st : ParserState)
    (r0 t : PyDateTime) (tag0 tag : String) (info0 info : ExtraInfo)
    (st2 : ParserState)
    (hsh : r0.us % usPerMinute = 0 ∨ ∃ k : Int, 0 ≤ k ∧ r0.us = base.us + k * usPerMinute)
    (h : parse_postprocess base key st (some r0, tag0, info0) =
         .ok ((some t, tag, info), st2)) :
    base < t ∨ (t.dayIndex < base.dayIndex ∧ t ≤ base) := by
  by_cases hle : r0 ≤ base
  · by_cases hday : r0.dayIndex = base.dayIndex
    · rw [postprocess_of_same_day base key st r0 tag0 info0 hle hday] at h
      cases h
      left
      exact same_day_roll base r0 hsh hle hday
    · rw [postprocess_of_past_day base key st r0 tag0 info0 hle hday] at h
      cases h
      right
      exact past_day_tail base r0 hle hday
  · have hgt : base < r0 := by
      rw [PyDateTime.lt_def]
      rw [PyDateTime.le_def] at hle
      omega
    by_cases hceil : base.addDays 1825 < r0
    · rw [postprocess_of_too_far base key st r0 tag0 info0 hgt hceil] at h
      simp at h
    · rw [postprocess_of_gt base key st r0 tag0 info0 hgt hceil] at h
      cases h
      left
      exact trunc_gt_of_gt base r0 hsh hgt

/-- 2020-01-01 10:00, the instant denoted by `"01.01.2020 10:00"`. -/
def dt2020 : PyDateTime :=
  ⟨daysFromCivil 2020 1 1 * usPerDay + 10 * usPerHour⟩

/-- The cache state after parsing `"01.01.2020 10:00"` from a fresh parser. -/
def stC1 : ParserState :=
  ⟨[("01.01.2020 10:00_ru_Europe/Moscow", (some dt2020, "date_dmy", noInfo))]⟩

/-- Counterexample for C1: an explicit calendar date lying in the past is
returned as-is, years before the reference instant — not rejected and not
strictly after the reference. -/
theorem claimC1_counterexample :
    TimeParser.parse dpNone emptyState "01.01.2020 10:00" "ru" "Europe/Moscow"
      base2024 = .ok ((some dt2020, "date_dmy", noInfo), stC1) ∧
    dt2020 < base2024 := by
  constructor
  · rfl
  · decide

/-- Claim C1 (corrected): on a cache-miss call (e.g. a fresh parser), every
instant returned by `parse` is strictly after the reference instant UNLESS
the match resolved to a strictly earlier calendar day — an explicit past
date — which is returned unchanged; rejecting it is left to the separate
`validate_time` check, which does flag it as non-future. -/
theorem claimC1_amended (dp : String → PyDateTime → Option PyDateTime)
    (st : ParserState) (text lang tz : String) (base t : PyDateTime)
    (tag : String) (info : ExtraInfo) (st2 : ParserState)
    (hfresh : st.cache = [])
    (h : TimeParser.parse dp st text lang tz base =
         .ok ((some t, tag, info), st2)) :
    base < t ∨ (t.dayIndex < base.dayIndex ∧
      validate_time (some t) base = (false, "Время должно быть в будущем")) := by
  have finish : ∀ r0 : PyDateTime,
      (r0.us % usPerMinute = 0 ∨ ∃ k : Int, 0 ≤ k ∧ r0.us = base.us + k * usPerMinute) →
      ∀ (key : String) (tag0 : String) (info0 : ExtraInfo),
      parse_postprocess base key st (some r0, tag0, info0) =
        .ok ((some t, tag, info), st2) →
      base < t ∨ (t.dayIndex < base.dayIndex ∧
        validate_time (some t) base = (false, "Время должно быть в будущем")) := by
    intro r0 hsh key tag0 info0 hpp
    rcases postprocess_future base key st r0 t tag0 tag info0 info st2 hsh hpp with
      hlt | ⟨hday, hle⟩
    · exact Or.inl hlt
    · refine Or.inr ⟨hday, ?_⟩
      have hv : validate_time (some t) base =
          (if t ≤ base then (false, "Время должно быть в будущем")
           else if base.addDays 1825 < t then
             (false, "Время слишком далеко в будущем (максимум 5 лет)")
           else (true, "OK")) := rfl
      rw [hv, if_pos hle]
  unfold TimeParser.parse at h
  by_cases hstrip : pyStrip text = ""
  · rw [if_pos hstrip] at h
    simp at h
  · rw [if_neg hstrip] at h
    simp only [hfresh, List.lookup] at h
    cases hdp : dp (pyLower (pyStrip text)) base with
    | some parsed =>
      simp only [try_dateparser, hdp] at h
      exact finish parsed.truncToMinute (Or.inl (truncToMinute_aligned parsed)) _ _ _ h
    | none =>
      simp only [try_dateparser, hdp] at h
      by_cases hlang : lang = "ru"
      · rw [if_pos hlang] at h
        cases hfx : parse_ru_fixed (pyLower (pyStrip text)) base tz with
        | error e =>
          simp only [hfx] at h
          exact Except.noConfusion h
        | ok trip =>
          obtain ⟨r0opt, tag0, info0⟩ := trip
          cases r0opt with
          | none =>
            simp only [hfx, postprocess_none] at h
            simp at h
          | some r0 =>
            simp only [hfx] at h
            exact finish r0 (shape_ru_fixed _ base tz r0 tag0 info0 hfx) _ _ _ h
      · rw [if_neg hlang] at h
        cases hfx : parse_en_fixed (pyLower (pyStrip text)) base tz with
        | error e =>
          simp only [hfx] at h
          exact Except.noConfusion h
        | ok trip =>
          obtain ⟨r0opt, tag0, info0⟩ := trip
          cases r0opt with
          | none =>
            simp only [hfx, postprocess_none] at h
            simp at h
          | some r0 =>
            simp only [hfx] at h
            exact finish r0 (shape_en_fixed _ base tz r0 tag0 info0 hfx) _ _ _ h

/-- Witness for the amended C1 at the concrete past-date input (the right
disjunct: an earlier calendar day, flagged non-future by `validate_time`). -/
theorem claimC1_witness :
    base2024 < dt2020 ∨ (dt2020.dayIndex < base2024.dayIndex ∧
      validate_time (some dt2020) base2024 =
        (false, "Время должно быть в будущем")) :=
  claimC1_amended dpNone emptyState "01.01.2020 10:00" "ru" "Europe/Moscow"
    base2024 dt2020 "date_dmy" noInfo stC1 rfl (by rfl)

/-! ### C9: cache behaviour -/

theorem lookup_cons_self (key : String) (v : ParseTriple)
    (l : List (String × ParseTriple)) :
    List.lookup key ((key, v) :: l) = some v := by
  simp [List.lookup]

/-- Every `.ok` outcome of `parse_postprocess` other than the `"too_far"`
rejection is stored in the returned cache under its key. -/
theorem postprocess_caches (base : PyDateTime) (key : String) (st : ParserState)
    (trip : ParseTriple) (out : ParseTriple) (st2 : ParserState)
    (h : parse_postprocess base key st trip = .ok (out, st2))
    (hnot : out.2.1 ≠ "too_far") :
    st2.cache.lookup key = some out := by
  obtain ⟨r0opt, tag0, info0⟩ := trip
  cases r0opt with
  | none =>
    rw [postprocess_none] at h
    cases h
    exact lookup_cons_self _ _ _
  | some r0 =>
    by_cases hle : r0 ≤ base
    · by_cases hday : r0.dayIndex = base.dayIndex
      · rw [postprocess_of_same_day base key st r0 tag0 info0 hle hday] at h
        cases h
        exact lookup_cons_self _ _ _
      · rw [postprocess_of_past_day base key st r0 tag0 info0 hle hday] at h
        cases h
        exact lookup_cons_self _ _ _
    · have hgt : base < r0 := by
        rw [PyDateTime.lt_def]
        rw [PyDateTime.le_def] at hle
        omega
      by_cases hceil : base.addDays 1825 < r0
      · rw [postprocess_of_too_far base key st r0 tag0 info0 hgt hceil] at h
        cases h
        exact absurd rfl hnot
      · rw [postprocess_of_gt base key st r0 tag0 info0 hgt hceil] at h
        cases h
        exact lookup_cons_self _ _ _

/-- Except for empty input, every `.ok` outcome of `parse` other than
`"too_far"` can be found in the returned cache under the call's key. -/
theorem parse_success_caches (dp : String → PyDateTime → Option PyDateTime)
    (st : ParserState) (text lang tz : String) (ref : PyDateTime)
    (out : ParseTriple) (st2 : ParserState)
    (h : TimeParser.parse dp st text lang tz ref = .ok (out, st2))
    (hnot : out.2.1 ≠ "too_far") :
    (pyStrip text = "" ∧ st2 = st ∧ out = (none, "empty", noInfo)) ∨
    (pyStrip text ≠ "" ∧
      st2.cache.lookup (pyLower (pyStrip text) ++ "_" ++ lang ++ "_" ++ tz) =
        some out) := by
  unfold TimeParser.parse at h
  by_cases hstrip : pyStrip text = ""
  · rw [if_pos hstrip] at h
    cases h
    exact Or.inl ⟨hstrip, rfl, rfl⟩
  · rw [if_neg hstrip] at h
    refine Or.inr ⟨hstrip, ?_⟩
    cases hlk : st.cache.lookup
        (pyLower (pyStrip text) ++ "_" ++ lang ++ "_" ++ tz) with
    | some r =>
      simp only [hlk] at h
      cases h
      exact hlk
    | none =>
      simp only [hlk] at h
      cases hdp : dp (pyLower (pyStrip text)) ref with
      | some parsed =>
        simp only [try_dateparser, hdp] at h
        exact postprocess_caches ref _ st _ out st2 h hnot
      | none =>
        simp only [try_dateparser, hdp] at h
        by_cases hlang : lang = "ru"
        · rw [if_pos hlang] at h
          cases hfx : parse_ru_fixed (pyLower (pyStrip text)) ref tz with
          | error e =>
            simp only [hfx] at h
            exact Except.noConfusion h
          | ok trip =>
            simp only [hfx] at h
            exact postprocess_caches ref _ st _ out st2 h hnot
        · rw [if_neg hlang] at h
          cases hfx : parse_en_fixed (pyLower (pyStrip text)) ref tz with
          | error e =>
            simp only [hfx] at h
            exact Except.noConfusion h
          | ok trip =>
            simp only [hfx] at h
            exact postprocess_caches ref _ st _ out st2 h hnot

/-- Reference instants 2015-01-01, 2022-06-01, 2023-01-01 10:00. -/
def ref2015 : PyDateTime := ⟨daysFromCivil 2015 1 1 * usPerDay⟩

def ref2022 : PyDateTime := ⟨daysFromCivil 2022 6 1 * usPerDay⟩

def dt2023 : PyDateTime :=
  ⟨daysFromCivil 2023 1 1 * usPerDay + 10 * usPerHour⟩

/-- Counterexample for C9: a `"too_far"` outcome is returned WITHOUT being
cached (the `return` precedes the cache write), so a second call with the
same text/language/timezone but a different reference instant re-parses and
returns a different result — memoization by (text, language, timezone) does
not hold for every parse result. -/
theorem claimC9_counterexample :
    TimeParser.parse dpNone emptyState "01.01.2023 10:00" "ru" "Europe/Moscow"
      ref2015 = .ok ((none, "too_far", noInfo), emptyState) ∧
    TimeParser.parse dpNone emptyState "01.01.2023 10:00" "ru" "Europe/Moscow"
      ref2022 = .ok ((some dt2023, "date_dmy", noInfo),
        ⟨[("01.01.2023 10:00_ru_Europe/Moscow",
           (some dt2023, "date_dmy", noInfo))]⟩) ∧
    ((none : Option PyDateTime), "too_far") ≠ (some dt2023, "date_dmy") := by
  refine ⟨rfl, rfl, by decide⟩

/-- Claim C9 (corrected): every `.ok` parse outcome other than the
`"too_far"` rejection is memoized by (normalized text, language, timezone):
a second call on the state returned by the first, with the same text,
language and timezone, returns the first call's result even when the
reference instant differs (hence also when it is identical). -/
theorem claimC9_amended (dp : String → PyDateTime → Option PyDateTime)
    (st : ParserState) (text lang tz : String) (ref ref2 : PyDateTime)
    (out : ParseTriple) (st2 : ParserState)
    (h1 : TimeParser.parse dp st text lang tz ref = .ok (out, st2))
    (hnot : out.2.1 ≠ "too_far") :
    TimeParser.parse dp st2 text lang tz ref2 = .ok (out, st2) := by
  rcases parse_success_caches dp st text lang tz ref out st2 h1 hnot with
    ⟨hstrip, rfl, rfl⟩ | ⟨hstrip, hlk⟩
  · unfold TimeParser.parse
    rw [if_pos hstrip]
  · unfold TimeParser.parse
    rw [if_neg hstrip]
    simp only [hlk]

/-- 2024-01-15 and 2024-02-20 midnight (two different reference instants). -/
def refJan : PyDateTime := ⟨daysFromCivil 2024 1 15 * usPerDay⟩

def refFeb : PyDateTime := ⟨daysFromCivil 2024 2 20 * usPerDay⟩

/-- The cache state after parsing the unparseable text `"x"`. -/
def stX : ParserState := ⟨[("x_ru_Europe/Moscow", (none, "not_parsed", noInfo))]⟩

/-- Witness for the amended C9: after a first call on `"x"` (cached as
`"not_parsed"`), a second call with a different reference instant returns
the first call's cached result. -/
theorem claimC9_witness :
    TimeParser.parse dpNone stX "x" "ru" "Europe/Moscow" refFeb =
      .ok ((none, "not_parsed", noInfo), stX) :=
  claimC9_amended dpNone emptyState "x" "ru" "Europe/Moscow" refJan refFeb
    (none, "not_parsed", noInfo) stX (by rfl) (by decide)

/-! ### C4: weekday-name phrases -/

theorem en_weekdays_lookup_range (w : String) (wd : Int)
    (h : List.lookup w en_weekdays = some wd) : 0 ≤ wd ∧ wd < 7 := by
  simp only [en_weekdays, List.lookup] at h
  repeat' split at h
  all_goals cases h
  all_goals omega

theorem replaceTime_fields (d : PyDateTime) (h m : Int) (r : PyDateTime)
    (hr : d.replaceTime h m = some r) :
    r.dayIndex = d.dayIndex ∧ r.hour = h ∧ r.minute = m := by
  unfold PyDateTime.replaceTime at hr
  split at hr
  · cases hr
    rename_i hcond
    simp only [PyDateTime.dayIndex, PyDateTime.hour, PyDateTime.minute,
      PyDateTime.timeOfDay, usPerDay, usPerHour, usPerMinute] at *
    refine ⟨?_, ?_, ?_⟩ <;> omega
  · cases hr

theorem get_next_weekday_spec (base : PyDateTime) (wd : Int)
    (hr : 0 ≤ wd ∧ wd < 7) :
    base.dayIndex < (get_next_weekday base wd).dayIndex ∧
    (get_next_weekday base wd).dayIndex ≤ base.dayIndex + 7 ∧
    (get_next_weekday base wd).weekday = wd := by
  have hW := weekday_lt base
  unfold get_next_weekday
  simp only [PyDateTime.truncToMinute, PyDateTime.addDays, PyDateTime.addUs,
    PyDateTime.dayIndex, PyDateTime.weekday, usPerDay, usPerMinute] at *
  split_ifs <;> refine ⟨?_, ?_, ?_⟩ <;> omega

theorem lt_of_dayIndex_lt (a b : PyDateTime) (h : a.dayIndex < b.dayIndex) :
    a < b := by
  rw [PyDateTime.lt_def]
  simp only [PyDateTime.dayIndex, usPerDay] at h
  omega

theorem trunc_of_aligned (r : PyDateTime) (hal : r.us % usPerMinute = 0) :
    r.truncToMinute = r := by
  cases r with
  | mk us =>
    simp only [PyDateTime.truncToMinute, PyDateTime.mk.injEq]
    simp only [usPerMinute] at hal ⊢
    omega

/-- Counterexample for C4: with the reference on a Monday at 08:00 and the
phrase naming Monday at 9 — a time that has not yet passed that day — the
parser returns the NEXT week's Monday (reference day + 7), not the same
day. -/
def refMonday : PyDateTime :=
  ⟨daysFromCivil 2024 1 15 * usPerDay + 8 * usPerHour⟩

def dtNextMonday : PyDateTime :=
  ⟨daysFromCivil 2024 1 22 * usPerDay + 9 * usPerHour⟩

def stC4 : ParserState :=
  ⟨[("monday at 9_en_America/New_York", (some dtNextMonday, "weekday", noInfo))]⟩

theorem claimC4_counterexample :
    TimeParser.parse dpNone emptyState "monday at 9" "en" "America/New_York"
      refMonday = .ok ((some dtNextMonday, "weekday", noInfo), stC4) ∧
    refMonday.weekday = 0 ∧ refMonday.hour = 8 ∧
    dtNextMonday.dayIndex = refMonday.dayIndex + 7 := by
  refine ⟨rfl, by decide, by decide, by decide⟩

/-- Claim C4 (corrected): a weekday-name phrase resolves to an occurrence of
the named weekday strictly after the reference day — between 1 and 7 days
ahead, at the requested clock time; when the reference's weekday equals the
named weekday the result falls in the following week even if the given time
has not yet passed that day (the days-ahead computation turns `<= 0` into
`+7`, so same-day is never returned). -/
theorem claimC4_amended (dp : String → PyDateTime → Option PyDateTime)
    (st : ParserState) (text tz : String) (base : PyDateTime)
    (wname : String) (hh : Nat) (mopt : Option Nat) (q : Option String)
    (wd : Int) (res : PyDateTime)
    (hlk : st.cache.lookup
      (pyLower (pyStrip text) ++ "_" ++ "en" ++ "_" ++ tz) = none)
    (hstrip : pyStrip text ≠ "")
    (hdp : dp (pyLower (pyStrip text)) base = none)
    (h1 : matchRelHoursEn (pyLower (pyStrip text)) = none)
    (h2 : matchRelMinutesEn (pyLower (pyStrip text)) = none)
    (h3 : matchRelDaysEn (pyLower (pyStrip text)) = none)
    (h4 : matchDayAfterEn (pyLower (pyStrip text)) = none)
    (h5 : matchTomorrowEn (pyLower (pyStrip text)) = none)
    (h6 : matchTodayEn (pyLower (pyStrip text)) = none)
    (h7 : matchWeekdayEn (pyLower (pyStrip text)) = some (wname, hh, mopt, q))
    (h8 : List.lookup wname en_weekdays = some wd)
    (h9 : (get_next_weekday base wd).replaceTime (adjust_hour_en hh q)
            (mopt.getD 0) = some res) :
    TimeParser.parse dp st text "en" tz base =
      .ok ((some res, "weekday", noInfo),
           ⟨(pyLower (pyStrip text) ++ "_" ++ "en" ++ "_" ++ tz,
             (some res, "weekday", noInfo)) :: st.cache⟩) ∧
    base.dayIndex < res.dayIndex ∧ res.dayIndex ≤ base.dayIndex + 7 ∧
    res.weekday = wd ∧ res.hour = adjust_hour_en hh q ∧
    res.minute = (mopt.getD 0 : Int) := by
  have hflds := replaceTime_fields _ _ _ _ h9
  have hgn := get_next_weekday_spec base wd (en_weekdays_lookup_range wname wd h8)
  have hwk : res.weekday = wd := by
    show (res.dayIndex + 3) % 7 = wd
    rw [hflds.1]
    exact hgn.2.2
  have hday1 : base.dayIndex < res.dayIndex := by rw [hflds.1]; exact hgn.1
  have hday7 : res.dayIndex ≤ base.dayIndex + 7 := by rw [hflds.1]; exact hgn.2.1
  have hgt : base < res := lt_of_dayIndex_lt _ _ hday1
  have hceil : ¬ base.addDays 1825 < res := by
    rw [PyDateTime.lt_def]
    simp only [PyDateTime.dayIndex, PyDateTime.addDays, PyDateTime.addUs,
      usPerDay] at hday7 ⊢
    omega
  have hal : res.us % usPerMinute = 0 := replaceTime_aligned _ _ _ _ h9
  have hfx : parse_en_fixed (pyLower (pyStrip text)) base tz =
      .ok (some res, "weekday", noInfo) := by
    unfold parse_en_fixed
    simp only [h1, h2, h3, h4, h5, h6, h7, h8, h9]
  refine ⟨?_, hday1, hday7, hwk, hflds.2.1, hflds.2.2⟩
  unfold TimeParser.parse
  rw [if_neg hstrip]
  simp only [hlk, try_dateparser, hdp]
  rw [if_neg (show ¬("en" : String) = "ru" by decide)]
  simp only [hfx]
  rw [postprocess_of_gt base _ st res "weekday" noInfo hgt hceil,
    trunc_of_aligned res hal]

/-- Witness for the amended C4: `"monday at 9"` parsed with the reference on
Monday 2024-01-15 08:00 yields Monday 2024-01-22 09:00 — the named weekday,
1-7 days ahead, never same-day. -/
theorem claimC4_witness :
    TimeParser.parse dpNone emptyState "monday at 9" "en" "America/New_York"
      refMonday =
      .ok ((some dtNextMonday, "weekday", noInfo),
           ⟨("monday at 9_en_America/New_York",
             (some dtNextMonday, "weekday", noInfo)) :: emptyState.cache⟩) ∧
    refMonday.dayIndex < dtNextMonday.dayIndex ∧
    dtNextMonday.dayIndex ≤ refMonday.dayIndex + 7 ∧
    dtNextMonday.weekday = 0 ∧ dtNextMonday.hour = adjust_hour_en 9 none ∧
    dtNextMonday.minute = ((Option.getD none 0 : Nat) : Int) :=
  claimC4_amended dpNone emptyState "monday at 9" "America/New_York" refMonday
    "monday" 9 none none 0 dtNextMonday rfl (by decide) rfl rfl rfl rfl rfl rfl
    rfl rfl rfl rfl

/-! ### C3: the one-day roll-forward of bare-time and relative-to-today
matches that are not strictly in the future -/

/-- The normalization `time_str.strip().lower()` applied by `parse` (line 94)
before matching and cache keying. -/
def normText (text : String) : String := pyLower (pyStrip text)

theorem not_far (base r : PyDateTime) (h : r.dayIndex ≤ base.dayIndex + 7) :
    ¬ base.addDays 1825 < r := by
  rw [PyDateTime.lt_def]
  simp only [PyDateTime.dayIndex, PyDateTime.addDays, PyDateTime.addUs,
    usPerDay] at *
  omega

/-- `parse_postprocess` passes through a bare-time result that the regex
branch already rolled to the next day (it is on the day after the
reference, hence strictly future and far below the ceiling). -/
theorem bare_roll_postprocess (base resolved : PyDateTime) (key tag : String)
    (st : ParserState) (info : ExtraInfo)
    (hrep_day : resolved.dayIndex = base.dayIndex)
    (hal : resolved.us % usPerMinute = 0) :
    parse_postprocess base key st (some (resolved.addDays 1), tag, info) =
      .ok ((some (resolved.addDays 1), tag, info),
           ⟨(key, (some (resolved.addDays 1), tag, info)) :: st.cache⟩) := by
  have hday1 : (resolved.addDays 1).dayIndex = base.dayIndex + 1 := by
    rw [addDays_dayIndex, hrep_day]
  have hgt : base < resolved.addDays 1 := lt_of_dayIndex_lt _ _ (by omega)
  have hceil : ¬ base.addDays 1825 < resolved.addDays 1 := not_far base _ (by omega)
  rw [postprocess_of_gt base key st _ tag info hgt hceil,
    trunc_of_aligned _ (addDays_aligned _ _ hal)]

/-- Step 3 of `parse` rolls a same-day non-future `today`-style result one
day forward and sets `adjusted = 'tomorrow'`. -/
theorem today_roll_postprocess (base resolved : PyDateTime) (key tag : String)
    (st : ParserState)
    (hle : resolved ≤ base) (hday : resolved.dayIndex = base.dayIndex)
    (hal : resolved.us % usPerMinute = 0) :
    parse_postprocess base key st (some resolved, tag, noInfo) =
      .ok ((some (resolved.addDays 1), tag, ⟨some .pyTomorrow⟩),
           ⟨(key, (some (resolved.addDays 1), tag, ⟨some .pyTomorrow⟩)) ::
            st.cache⟩) := by
  rw [postprocess_of_same_day base key st resolved tag noInfo hle hday,
    trunc_of_aligned _ (addDays_aligned _ _ hal)]

/-- On a cache miss with the oracle finding nothing, `parse` with
`language = "ru"` is the Russian cascade followed by the post-processing. -/
theorem parse_eq_of_fixed_ru (dp : String → PyDateTime → Option PyDateTime)
    (st : ParserState) (text tz : String) (base : PyDateTime)
    (trip : ParseTriple)
    (hstrip : pyStrip text ≠ "")
    (hlk : st.cache.lookup (normText text ++ "_" ++ "ru" ++ "_" ++ tz) = none)
    (hdp : dp (normText text) base = none)
    (hfx : parse_ru_fixed (normText text) base tz = .ok trip) :
    TimeParser.parse dp st text "ru" tz base =
      parse_postprocess base (normText text ++ "_" ++ "ru" ++ "_" ++ tz) st
        trip := by
  simp only [normText] at hlk hdp hfx
  unfold TimeParser.parse
  rw [if_neg hstrip]
  simp only [hlk, try_dateparser, hdp]
  simp only [if_true]
  simp only [hfx, normText]

/-- On a cache miss with the oracle finding nothing, `parse` with
`language = "en"` is the English cascade followed by the post-processing. -/
theorem parse_eq_of_fixed_en (dp : String → PyDateTime → Option PyDateTime)
    (st : ParserState) (text tz : String) (base : PyDateTime)
    (trip : ParseTriple)
    (hstrip : pyStrip text ≠ "")
    (hlk : st.cache.lookup (normText text ++ "_" ++ "en" ++ "_" ++ tz) = none)
    (hdp : dp (normText text) base = none)
    (hfx : parse_en_fixed (normText text) base tz = .ok trip) :
    TimeParser.parse dp st text "en" tz base =
      parse_postprocess base (normText text ++ "_" ++ "en" ++ "_" ++ tz) st
        trip := by
  simp only [normText] at hlk hdp hfx
  unfold TimeParser.parse
  rw [if_neg hstrip]
  simp only [hlk, try_dateparser, hdp]
  rw [if_neg (show ¬("en" : String) = "ru" by decide)]
  simp only [hfx, normText]

theorem PyDateTime.not_lt_of_le (a b : PyDateTime) (h : a ≤ b) : ¬ b < a := by
  rw [PyDateTime.le_def] at h
  rw [PyDateTime.lt_def]
  omega

/-- Claim C3 (confirmed): whenever a match carries no explicit date — a
relative-to-today (`today`/`сегодня`) form handled by step 3 of `parse`, or
a bare-time form (`в H[:MM]`, `H qualifier`, `H[:MM][ qualifier]`,
`at H[:MM]`, `H[:MM] am/pm`) handled inside the cascades — and the resolved
instant is not strictly after the reference instant, `parse` returns exactly
the resolved instant advanced by one day and sets the `adjusted` flag
(Python `True` in the bare-time branches, the truthy `'tomorrow'` in the
`today` path).  Stated for every branch of both language cascades, for every
oracle behaviour that leaves the repository's own grammar to decide
(`dateparser` finds nothing). -/
theorem claimC3 :
    (∀ (dp : String → PyDateTime → Option PyDateTime) (st : ParserState)
       (text tz : String) (base : PyDateTime) (hh : Nat) (mopt : Option Nat)
       (q : Option String) (resolved : PyDateTime),
      pyStrip text ≠ "" →
      st.cache.lookup (normText text ++ "_" ++ "ru" ++ "_" ++ tz) = none →
      dp (normText text) base = none →
      matchRelHoursRu (normText text) = none →
      matchRelMinutesRu (normText text) = none →
      matchRelDaysRu (normText text) = none →
      matchDayAfterRu (normText text) = none →
      matchTomorrowRu (normText text) = none →
      matchTodayRu (normText text) = some (hh, mopt, q) →
      base.replaceTime (adjust_hour_ru hh q) (mopt.getD 0) = some resolved →
      resolved ≤ base →
      TimeParser.parse dp st text "ru" tz base =
        .ok ((some (resolved.addDays 1), "today", ⟨some .pyTomorrow⟩),
             ⟨(normText text ++ "_" ++ "ru" ++ "_" ++ tz,
               (some (resolved.addDays 1), "today", ⟨some .pyTomorrow⟩)) ::
              st.cache⟩)) ∧
    (∀ (dp : String → PyDateTime → Option PyDateTime) (st : ParserState)
       (text tz : String) (base : PyDateTime) (hh : Nat) (mopt : Option Nat)
       (q : Option String) (resolved : PyDateTime),
      pyStrip text ≠ "" →
      st.cache.lookup (normText text ++ "_" ++ "ru" ++ "_" ++ tz) = none →
      dp (normText text) base = none →
      matchRelHoursRu (normText text) = none →
      matchRelMinutesRu (normText text) = none →
      matchRelDaysRu (normText text) = none →
      matchDayAfterRu (normText text) = none →
      matchTomorrowRu (normText text) = none →
      matchTodayRu (normText text) = none →
      matchWeekdayRu (normText text) = none →
      matchSimpleTimeRu (normText text) = some (hh, mopt, q) →
      base.replaceTime (adjust_hour_ru hh q) (mopt.getD 0) = some resolved →
      resolved ≤ base →
      TimeParser.parse dp st text "ru" tz base =
        .ok ((some (resolved.addDays 1), "simple_time_tomorrow",
              ⟨some .pyTrue⟩),
             ⟨(normText text ++ "_" ++ "ru" ++ "_" ++ tz,
               (some (resolved.addDays 1), "simple_time_tomorrow",
                ⟨some .pyTrue⟩)) :: st.cache⟩)) ∧
    (∀ (dp : String → PyDateTime → Option PyDateTime) (st : ParserState)
       (text tz : String) (base : PyDateTime) (hh : Nat) (q : String)
       (resolved : PyDateTime),
      pyStrip text ≠ "" →
      st.cache.lookup (normText text ++ "_" ++ "ru" ++ "_" ++ tz) = none →
      dp (normText text) base = none →
      matchRelHoursRu (normText text) = none →
      matchRelMinutesRu (normText text) = none →
      matchRelDaysRu (normText text) = none →
      matchDayAfterRu (normText text) = none →
      matchTomorrowRu (normText text) = none →
      matchTodayRu (normText text) = none →
      matchWeekdayRu (normText text) = none →
      matchSimpleTimeRu (normText text) = none →
      matchTimeNoPrepRu (normText text) = some (hh, q) →
      base.replaceTime (adjust_hour_ru hh (some q)) 0 = some resolved →
      resolved ≤ base →
      TimeParser.parse dp st text "ru" tz base =
        .ok ((some (resolved.addDays 1), "time_no_prep_tomorrow",
              ⟨some .pyTrue⟩),
             ⟨(normText text ++ "_" ++ "ru" ++ "_" ++ tz,
               (some (resolved.addDays 1), "time_no_prep_tomorrow",
                ⟨some .pyTrue⟩)) :: st.cache⟩)) ∧
    (∀ (dp : String → PyDateTime → Option PyDateTime) (st : ParserState)
       (text tz : String) (base : PyDateTime) (hh : Nat) (mopt : Option Nat)
       (q : Option String) (resolved : PyDateTime),
      pyStrip text ≠ "" →
      st.cache.lookup (normText text ++ "_" ++ "ru" ++ "_" ++ tz) = none →
      dp (normText text) base = none →
      matchRelHoursRu (normText text) = none →
      matchRelMinutesRu (normText text) = none →
      matchRelDaysRu (normText text) = none →
      matchDayAfterRu (normText text) = none →
      matchTomorrowRu (normText text) = none →
      matchTodayRu (normText text) = none →
      matchWeekdayRu (normText text) = none →
      matchSimpleTimeRu (normText text) = none →
      matchTimeNoPrepRu (normText text) = none →
      matchTimeOnlyRu (normText text) = some (hh, mopt, q) →
      base.replaceTime (adjust_hour_ru hh q) (mopt.getD 0) = some resolved →
      resolved ≤ base →
      TimeParser.parse dp st text "ru" tz base =
        .ok ((some (resolved.addDays 1), "time_only_tomorrow", ⟨some .pyTrue⟩),
             ⟨(normText text ++ "_" ++ "ru" ++ "_" ++ tz,
               (some (resolved.addDays 1), "time_only_tomorrow",
                ⟨some .pyTrue⟩)) :: st.cache⟩)) ∧
    (∀ (dp : String → PyDateTime → Option PyDateTime) (st : ParserState)
       (text tz : String) (base : PyDateTime) (hh : Nat) (mopt : Option Nat)
       (q : Option String) (resolved : PyDateTime),
      pyStrip text ≠ "" →
      st.cache.lookup (normText text ++ "_" ++ "en" ++ "_" ++ tz) = none →
      dp (normText text) base = none →
      matchRelHoursEn (normText text) = none →
      matchRelMinutesEn (normText text) = none →
      matchRelDaysEn (normText text) = none →
      matchDayAfterEn (normText text) = none →
      matchTomorrowEn (normText text) = none →
      matchTodayEn (normText text) = some (hh, mopt, q) →
      base.replaceTime (adjust_hour_en hh q) (mopt.getD 0) = some resolved →
      resolved ≤ base →
      TimeParser.parse dp st text "en" tz base =
        .ok ((some (resolved.addDays 1), "today", ⟨some .pyTomorrow⟩),
             ⟨(normText text ++ "_" ++ "en" ++ "_" ++ tz,
               (some (resolved.addDays 1), "today", ⟨some .pyTomorrow⟩)) ::
              st.cache⟩)) ∧
    (∀ (dp : String → PyDateTime → Option PyDateTime) (st : ParserState)
       (text tz : String) (base : PyDateTime) (hh : Nat) (mopt : Option Nat)
       (q : Option String) (resolved : PyDateTime),
      pyStrip text ≠ "" →
      st.cache.lookup (normText text ++ "_" ++ "en" ++ "_" ++ tz) = none →
      dp (normText text) base = none →
      matchRelHoursEn (normText text) = none →
      matchRelMinutesEn (normText text) = none →
      matchRelDaysEn (normText text) = none →
      matchDayAfterEn (normText text) = none →
      matchTomorrowEn (normText text) = none →
      matchTodayEn (normText text) = none →
      matchWeekdayEn (normText text) = none →
      matchSimpleTimeEn (normText text) = some (hh, mopt, q) →
      base.replaceTime (adjust_hour_en hh q) (mopt.getD 0) = some resolved →
      resolved ≤ base →
      TimeParser.parse dp st text "en" tz base =
        .ok ((some (resolved.addDays 1), "simple_time_tomorrow",
              ⟨some .pyTrue⟩),
             ⟨(normText text ++ "_" ++ "en" ++ "_" ++ tz,
               (some (resolved.addDays 1), "simple_time_tomorrow",
                ⟨some .pyTrue⟩)) :: st.cache⟩)) ∧
    (∀ (dp : String → PyDateTime → Option PyDateTime) (st : ParserState)
       (text tz : String) (base : PyDateTime) (hh : Nat) (mopt : Option Nat)
       (q : String) (resolved : PyDateTime),
      pyStrip text ≠ "" →
      st.cache.lookup (normText text ++ "_" ++ "en" ++ "_" ++ tz) = none →
      dp (normText text) base = none →
      matchRelHoursEn (normText text) = none →
      matchRelMinutesEn (normText text) = none →
      matchRelDaysEn (normText text) = none →
      matchDayAfterEn (normText text) = none →
      matchTomorrowEn (normText text) = none →
      matchTodayEn (normText text) = none →
      matchWeekdayEn (normText text) = none →
      matchSimpleTimeEn (normText text) = none →
      matchTimeAmPmEn (normText text) = some (hh, mopt, q) →
      base.replaceTime (adjust_hour_en hh (some q)) (mopt.getD 0) =
        some resolved →
      resolved ≤ base →
      TimeParser.parse dp st text "en" tz base =
        .ok ((some (resolved.addDays 1), "time_ampm_tomorrow", ⟨some .pyTrue⟩),
             ⟨(normText text ++ "_" ++ "en" ++ "_" ++ tz,
               (some (resolved.addDays 1), "time_ampm_tomorrow",
                ⟨some .pyTrue⟩)) :: st.cache⟩)) ∧
    (∀ (dp : String → PyDateTime → Option PyDateTime) (st : ParserState)
       (text tz : String) (base : PyDateTime) (hh : Nat) (mopt : Option Nat)
       (q : Option String) (resolved : PyDateTime),
      pyStrip text ≠ "" →
      st.cache.lookup (normText text ++ "_" ++ "en" ++ "_" ++ tz) = none →
      dp (normText text) base = none →
      matchRelHoursEn (normText text) = none →
      matchRelMinutesEn (normText text) = none →
      matchRelDaysEn (normText text) = none →
      matchDayAfterEn (normText text) = none →
      matchTomorrowEn (normText text) = none →
      matchTodayEn (normText text) = none →
      matchWeekdayEn (normText text) = none →
      matchSimpleTimeEn (normText text) = none →
      matchTimeAmPmEn (normText text) = none →
      matchTimeOnlyEn (normText text) = some (hh, mopt, q) →
      base.replaceTime (adjust_hour_en hh q) (mopt.getD 0) = some resolved →
      resolved ≤ base →
      TimeParser.parse dp st text "en" tz base =
        .ok ((some (resolved.addDays 1), "time_only_tomorrow", ⟨some .pyTrue⟩),
             ⟨(normText text ++ "_" ++ "en" ++ "_" ++ tz,
               (some (resolved.addDays 1), "time_only_tomorrow",
                ⟨some .pyTrue⟩)) :: st.cache⟩)) := by
  refine ⟨?_, ?_, ?_, ?_, ?_, ?_, ?_, ?_⟩
  · intro dp st text tz base hh mopt q resolved hstrip hlk hdp hA hB hC hD hE
      hM hR hle
    have hfx : parse_ru_fixed (normText text) base tz =
        .ok (some resolved, "today", noInfo) := by
      unfold parse_ru_fixed
      simp only [hA, hB, hC, hD, hE, hM, hR]
    rw [parse_eq_of_fixed_ru dp st text tz base _ hstrip hlk hdp hfx]
    exact today_roll_postprocess base resolved _ _ st hle
      (replaceTime_fields _ _ _ _ hR).1 (replaceTime_aligned _ _ _ _ hR)
  · intro dp st text tz base hh mopt q resolved hstrip hlk hdp hA hB hC hD hE
      hF hG hM hR hle
    have hfx : parse_ru_fixed (normText text) base tz =
        .ok (some (resolved.addDays 1), "simple_time_tomorrow",
             ⟨some .pyTrue⟩) := by
      unfold parse_ru_fixed parse_ru_fixed_from_simple
      simp only [hA, hB, hC, hD, hE, hF, hG, hM, hR]
      rw [if_neg (PyDateTime.not_lt_of_le _ _ hle)]
    rw [parse_eq_of_fixed_ru dp st text tz base _ hstrip hlk hdp hfx]
    exact bare_roll_postprocess base resolved _ _ st _
      (replaceTime_fields _ _ _ _ hR).1 (replaceTime_aligned _ _ _ _ hR)
  · intro dp st text tz base hh q resolved hstrip hlk hdp hA hB hC hD hE
      hF hG hH hM hR hle
    have hfx : parse_ru_fixed (normText text) base tz =
        .ok (some (resolved.addDays 1), "time_no_prep_tomorrow",
             ⟨some .pyTrue⟩) := by
      unfold parse_ru_fixed parse_ru_fixed_from_simple
      simp only [hA, hB, hC, hD, hE, hF, hG, hH, hM, hR]
      rw [if_neg (PyDateTime.not_lt_of_le _ _ hle)]
    rw [parse_eq_of_fixed_ru dp st text tz base _ hstrip hlk hdp hfx]
    exact bare_roll_postprocess base resolved _ _ st _
      (replaceTime_fields _ _ _ _ hR).1 (replaceTime_aligned _ _ _ _ hR)
  · intro dp st text tz base hh mopt q resolved hstrip hlk hdp hA hB hC hD hE
      hF hG hH hI hM hR hle
    have hfx : parse_ru_fixed (normText text) base tz =
        .ok (some (resolved.addDays 1), "time_only_tomorrow",
             ⟨some .pyTrue⟩) := by
      unfold parse_ru_fixed parse_ru_fixed_from_simple
      simp only [hA, hB, hC, hD, hE, hF, hG, hH, hI, hM, hR]
      rw [if_neg (PyDateTime.not_lt_of_le _ _ hle)]
    rw [parse_eq_of_fixed_ru dp st text tz base _ hstrip hlk hdp hfx]
    exact bare_roll_postprocess base resolved _ _ st _
      (replaceTime_fields _ _ _ _ hR).1 (replaceTime_aligned _ _ _ _ hR)
  · intro dp st text tz base hh mopt q resolved hstrip hlk hdp hA hB hC hD hE
      hM hR hle
    have hfx : parse_en_fixed (normText text) base tz =
        .ok (some resolved, "today", noInfo) := by
      unfold parse_en_fixed
      simp only [hA, hB, hC, hD, hE, hM, hR]
    rw [parse_eq_of_fixed_en dp st text tz base _ hstrip hlk hdp hfx]
    exact today_roll_postprocess base resolved _ _ st hle
      (replaceTime_fields _ _ _ _ hR).1 (replaceTime_aligned _ _ _ _ hR)
  · intro dp st text tz base hh mopt q resolved hstrip hlk hdp hA hB hC hD hE
      hF hG hM hR hle
    have hfx : parse_en_fixed (normText text) base tz =
        .ok (some (resolved.addDays 1), "simple_time_tomorrow",
             ⟨some .pyTrue⟩) := by
      unfold parse_en_fixed parse_en_fixed_from_simple
      simp only [hA, hB, hC, hD, hE, hF, hG, hM, hR]
      rw [if_neg (PyDateTime.not_lt_of_le _ _ hle)]
    rw [parse_eq_of_fixed_en dp st text tz base _ hstrip hlk hdp hfx]
    exact bare_roll_postprocess base resolved _ _ st _
      (replaceTime_fields _ _ _ _ hR).1 (replaceTime_aligned _ _ _ _ hR)
  · intro dp st text tz base hh mopt q resolved hstrip hlk hdp hA hB hC hD hE
      hF hG hH hM hR hle
    have hfx : parse_en_fixed (normText text) base tz =
        .ok (some (resolved.addDays 1), "time_ampm_tomorrow",
             ⟨some .pyTrue⟩) := by
      unfold parse_en_fixed parse_en_fixed_from_simple
      simp only [hA, hB, hC, hD, hE, hF, hG, hH, hM, hR]
      rw [if_neg (PyDateTime.not_lt_of_le _ _ hle)]
    rw [parse_eq_of_fixed_en dp st text tz base _ hstrip hlk hdp hfx]
    exact bare_roll_postprocess base resolved _ _ st _
      (replaceTime_fields _ _ _ _ hR).1 (replaceTime_aligned _ _ _ _ hR)
  · intro dp st text tz base hh mopt q resolved hstrip hlk hdp hA hB hC hD hE
      hF hG hH hI hM hR hle
    have hfx : parse_en_fixed (normText text) base tz =
        .ok (some (resolved.addDays 1), "time_only_tomorrow",
             ⟨some .pyTrue⟩) := by
      unfold parse_en_fixed parse_en_fixed_from_simple
      simp only [hA, hB, hC, hD, hE, hF, hG, hH, hI, hM, hR]
      rw [if_neg (PyDateTime.not_lt_of_le _ _ hle)]
    rw [parse_eq_of_fixed_en dp st text tz base _ hstrip hlk hdp hfx]
    exact bare_roll_postprocess base resolved _ _ st _
      (replaceTime_fields _ _ _ _ hR).1 (replaceTime_aligned _ _ _ _ hR)

/-- Reference 2024-01-15 21:00 and the same day's 20:00. -/
def ref2100 : PyDateTime :=
  ⟨daysFromCivil 2024 1 15 * usPerDay + 21 * usPerHour⟩

def dt2000 : PyDateTime :=
  ⟨daysFromCivil 2024 1 15 * usPerDay + 20 * usPerHour⟩

/-- Witness for C3, the claim's own scenario: `parse("20:00")` with the
reference at 21:00 the same day returns tomorrow at 20:00 with
`adjusted = True`. -/
theorem claimC3_witness :
    TimeParser.parse dpNone emptyState "20:00" "ru" "Europe/Moscow" ref2100 =
      .ok ((some (dt2000.addDays 1), "time_only_tomorrow", ⟨some .pyTrue⟩),
           ⟨(normText "20:00" ++ "_" ++ "ru" ++ "_" ++ "Europe/Moscow",
             (some (dt2000.addDays 1), "time_only_tomorrow",
              ⟨some .pyTrue⟩)) :: emptyState.cache⟩) ∧
    (dt2000.addDays 1).hour = 20 ∧ (dt2000.addDays 1).minute = 0 ∧
    (dt2000.addDays 1).dayIndex = ref2100.dayIndex + 1 := by
  refine ⟨claimC3.2.2.2.1 dpNone emptyState "20:00" "Europe/Moscow" ref2100
    20 (some 0) none dt2000 (by decide) rfl rfl rfl rfl rfl rfl rfl rfl rfl
    rfl rfl rfl (by rfl) (by decide), by decide, by decide, by decide⟩
